import Mathlib

/-!
Verification development for the AirControlX scheduling and runway-allocation
core (`src/source.cpp`).  The C++ classes `AVN`, `Aircraft`, `ArrivalFlight`,
`DepartureFlight` and `FlightScheduler` are embedded as Lean structures and
executable functions.  Randomness (`uniform_int_distribution` draws) is made
explicit: every draw the C++ code may perform during one tick is supplied by an
oracle (`TickDraws`, `StreamDraws`, `Env`), and reachability quantifies over all
oracle values within the ranges the C++ distributions produce.  Wall-clock
times (`time(nullptr)`, `chrono::system_clock::now()`) are modelled as natural
numbers supplied by the oracle.  The `double` money fields of `AVN` are
modelled as exact rationals (the C++ float constant `0.15` is modelled as
`15/100`; the IEEE rounding of `0.15f` differs from `15/100` by less than
`10^-8` relatively, far below any currency rounding).
-/

/- Flight types (enum class FlightType). -/
inductive FlightType
  | COMMERCIAL
  | CARGO
  | EMERGENCY
deriving DecidableEq, Repr

/- Aircraft states for arrivals (enum class ArrivalState). -/
inductive ArrivalState
  | HOLDING
  | APPROACH
  | LANDING
  | TAXI
  | AT_GATE
deriving DecidableEq, Repr

/- Aircraft states for departures (enum class DepartureState). -/
inductive DepartureState
  | AT_GATE
  | TAXI
  | TAKEOFF_ROLL
  | CLIMB
  | CRUISE
deriving DecidableEq, Repr

/- Direction of flight (enum class Direction). -/
inductive Direction
  | NORTH
  | SOUTH
  | EAST
  | WEST
deriving DecidableEq, Repr

/- Runway designations (enum class Runway). -/
inductive Runway
  | RWY_A
  | RWY_B
  | RWY_C
  | NONE
deriving DecidableEq, Repr

/- Payment status (enum class PaymentStatus). -/
inductive PaymentStatus
  | UNPAID
  | PAID
  | OVERDUE
deriving DecidableEq, Repr

/- The phase of an aircraft: the two C++ subclasses each own their state enum;
the closed variant records which subclass the object is. -/
inductive Phase
  | arr (s : ArrivalState)
  | dep (s : DepartureState)
deriving DecidableEq, Repr

-- SYSTEM CONFIGURATION constants from source.cpp

def ARRIVAL_NORTH_INTERVAL : Nat := 180
def ARRIVAL_SOUTH_INTERVAL : Nat := 120
def DEPARTURE_EAST_INTERVAL : Nat := 150
def DEPARTURE_WEST_INTERVAL : Nat := 240

def NORTH_EMERGENCY_PROBABILITY : Nat := 10
def SOUTH_EMERGENCY_PROBABILITY : Nat := 5
def EAST_EMERGENCY_PROBABILITY : Nat := 15
def WEST_EMERGENCY_PROBABILITY : Nat := 20

def HOLDING_MIN_SPEED : Int := 400
def HOLDING_MAX_SPEED : Int := 600
def APPROACH_MIN_SPEED : Int := 240
def APPROACH_MAX_SPEED : Int := 290
def LANDING_START_SPEED : Int := 240
def LANDING_END_SPEED : Int := 30
def TAXI_MIN_SPEED : Int := 15
def TAXI_MAX_SPEED : Int := 30
def GATE_MAX_SPEED : Int := 5

def TAKEOFF_MAX_SPEED : Int := 290
def CLIMB_MIN_SPEED : Int := 250
def CLIMB_MAX_SPEED : Int := 463
def CRUISE_MIN_SPEED : Int := 800
def CRUISE_MAX_SPEED : Int := 900

def COMMERCIAL_FINE : Int := 500000
def CARGO_FINE : Int := 700000

/- `const float SERVICE_FEE_PERCENTAGE = 0.15` modelled as an exact rational. -/
def SERVICE_FEE_PERCENTAGE : Rat := 15 / 100

def VIOLATION_PROBABILITY : Nat := 15
def MAX_VIOLATION_SPEED_EXCESS : Nat := 40

-- State transition times: private members of ArrivalFlight and DepartureFlight

def HOLDING_TIME : Nat := 20
def APPROACH_TIME : Nat := 15
def LANDING_TIME : Nat := 10
def ARR_TAXI_TIME : Nat := 15

def DEP_TAXI_TIME : Nat := 15
def TAKEOFF_TIME : Nat := 10
def CLIMB_TIME : Nat := 20

/- Airspace Violation Notice: class AVN.  `issueTime`/`dueDate` are `time_t`
values modelled as naturals; the money fields are exact rationals. -/
structure AVN where
  id : Nat
  airline : String
  flightNumber : String
  aircraftType : FlightType
  recordedSpeed : Int
  permissibleSpeedMin : Int
  permissibleSpeedMax : Int
  issueTime : Nat
  dueDate : Nat
  fineAmount : Rat
  serviceFee : Rat
  totalAmount : Rat
  status : PaymentStatus
deriving DecidableEq, Repr

/- The AVN constructor (source.cpp lines 165-189).  `now` stands for the value
`time(nullptr)` returned when the notice is created. -/
def mkAVN (id : Nat) (airline flightNumber : String) (t : FlightType)
    (recordedSpeed permissibleSpeedMin permissibleSpeedMax : Int) (now : Nat) : AVN :=
  let fineAmount : Rat := if t = FlightType.COMMERCIAL then (COMMERCIAL_FINE : Rat) else (CARGO_FINE : Rat)
  let serviceFee : Rat := fineAmount * SERVICE_FEE_PERCENTAGE
  { id := id
    airline := airline
    flightNumber := flightNumber
    aircraftType := t
    recordedSpeed := recordedSpeed
    permissibleSpeedMin := permissibleSpeedMin
    permissibleSpeedMax := permissibleSpeedMax
    issueTime := now
    dueDate := now + 3 * 24 * 60 * 60
    fineAmount := fineAmount
    serviceFee := serviceFee
    totalAmount := fineAmount + serviceFee
    status := PaymentStatus.UNPAID }

/- The Aircraft object: the fields of the C++ base class `Aircraft` plus the
subclass state (`phase`, `stateTime`).  `violatedStates` is the
`std::set<string>` of state names that already produced a violation; it is kept
as a duplicate-free list (insertion only happens under a non-membership
guard). -/
structure Aircraft where
  id : Nat
  flightNumber : String
  airline : String
  type : FlightType
  direction : Direction
  priority : Nat
  currentSpeed : Int
  hasActiveViolation : Bool
  currentViolation : Option AVN
  scheduledTime : Nat
  assignedRunway : Runway
  isEmergency : Bool
  violatedStates : List String
  maintainViolationSpeed : Bool
  violationSpeed : Int
  phase : Phase
  stateTime : Nat
deriving DecidableEq, Repr

def arrStateString : ArrivalState → String
  | ArrivalState.HOLDING => "Holding"
  | ArrivalState.APPROACH => "Approach"
  | ArrivalState.LANDING => "Landing"
  | ArrivalState.TAXI => "Taxi"
  | ArrivalState.AT_GATE => "At Gate"

def depStateString : DepartureState → String
  | DepartureState.AT_GATE => "At Gate"
  | DepartureState.TAXI => "Taxi"
  | DepartureState.TAKEOFF_ROLL => "Takeoff Roll"
  | DepartureState.CLIMB => "Climb"
  | DepartureState.CRUISE => "Cruise"

/- Aircraft::getStateString via the virtual overrides. -/
def Aircraft.getStateString (a : Aircraft) : String :=
  match a.phase with
  | Phase.arr s => arrStateString s
  | Phase.dep s => depStateString s

/- One tick's worth of random draws for a single aircraft's updateStatus call.
Each field corresponds to one `uniform_int_distribution` draw the C++ code may
perform; `Valid` restricts each to the range of its distribution. -/
structure TickDraws where
  chance1 : Nat
  chance2 : Nat
  excess : Nat
  approachSpeed : Int
  taxiSpeed : Int
  climbSpeed : Int
  cruiseSpeed : Int
  cruiseCoin : Nat
deriving DecidableEq, Repr

def TickDraws.Valid (d : TickDraws) : Prop :=
  1 ≤ d.chance1 ∧ d.chance1 ≤ 100 ∧
  1 ≤ d.chance2 ∧ d.chance2 ≤ 100 ∧
  5 ≤ d.excess ∧ d.excess ≤ MAX_VIOLATION_SPEED_EXCESS ∧
  APPROACH_MIN_SPEED ≤ d.approachSpeed ∧ d.approachSpeed ≤ APPROACH_MAX_SPEED ∧
  TAXI_MIN_SPEED ≤ d.taxiSpeed ∧ d.taxiSpeed ≤ TAXI_MAX_SPEED ∧
  CLIMB_MIN_SPEED ≤ d.climbSpeed ∧ d.climbSpeed ≤ CLIMB_MAX_SPEED ∧
  CRUISE_MIN_SPEED ≤ d.cruiseSpeed ∧ d.cruiseSpeed ≤ CRUISE_MAX_SPEED ∧
  1 ≤ d.cruiseCoin ∧ d.cruiseCoin ≤ 100

instance (d : TickDraws) : Decidable d.Valid := by
  unfold TickDraws.Valid; infer_instance

/- The state-transition part of ArrivalFlight::updateStatus (the `switch` on
the current state, after `stateTime++`). -/
def arrPhaseStep (a : Aircraft) (d : TickDraws) : Aircraft :=
  let t := a.stateTime + 1
  match a.phase with
  | Phase.arr ArrivalState.HOLDING =>
    if HOLDING_TIME ≤ t ∧ a.assignedRunway ≠ Runway.NONE then
      { a with phase := Phase.arr ArrivalState.APPROACH, stateTime := 0,
               maintainViolationSpeed := false, currentSpeed := d.approachSpeed }
    else { a with stateTime := t }
  | Phase.arr ArrivalState.APPROACH =>
    if APPROACH_TIME ≤ t then
      { a with phase := Phase.arr ArrivalState.LANDING, stateTime := 0,
               maintainViolationSpeed := false, currentSpeed := LANDING_START_SPEED }
    else { a with stateTime := t }
  | Phase.arr ArrivalState.LANDING =>
    let v := if a.maintainViolationSpeed then a.currentSpeed
             else max LANDING_END_SPEED
               (LANDING_START_SPEED - (LANDING_START_SPEED - LANDING_END_SPEED) * (t : Int) / (LANDING_TIME : Int))
    if LANDING_TIME ≤ t then
      { a with phase := Phase.arr ArrivalState.TAXI, stateTime := 0,
               maintainViolationSpeed := false, currentSpeed := d.taxiSpeed }
    else { a with stateTime := t, currentSpeed := v }
  | Phase.arr ArrivalState.TAXI =>
    if ARR_TAXI_TIME ≤ t then
      { a with phase := Phase.arr ArrivalState.AT_GATE, stateTime := 0,
               maintainViolationSpeed := false, currentSpeed := 0 }
    else { a with stateTime := t }
  | Phase.arr ArrivalState.AT_GATE =>
    { a with stateTime := t, maintainViolationSpeed := false, currentSpeed := 0 }
  | Phase.dep _ => a

/- The stochastic violation-injection part of ArrivalFlight::updateStatus
(source.cpp lines 470-522), run after the state transition. -/
def arrInject (a : Aircraft) (d : TickDraws) : Aircraft :=
  if a.hasActiveViolation = false ∧ a.isEmergency = false ∧ a.maintainViolationSpeed = false then
    if d.chance1 ≤ VIOLATION_PROBABILITY / 3 then
      if d.chance2 ≤ VIOLATION_PROBABILITY then
        match a.phase with
        | Phase.arr ArrivalState.HOLDING =>
          let v := HOLDING_MAX_SPEED + (d.excess : Int)
          { a with currentSpeed := v, maintainViolationSpeed := true, violationSpeed := v }
        | Phase.arr ArrivalState.APPROACH =>
          let v := APPROACH_MAX_SPEED + (d.excess : Int)
          { a with currentSpeed := v, maintainViolationSpeed := true, violationSpeed := v }
        | Phase.arr ArrivalState.LANDING =>
          if LANDING_TIME / 2 < a.stateTime then
            let v := a.currentSpeed + (d.excess : Int)
            { a with currentSpeed := v, maintainViolationSpeed := true, violationSpeed := v }
          else a
        | Phase.arr ArrivalState.TAXI =>
          let v := TAXI_MAX_SPEED + ((d.excess / 2 : Nat) : Int)
          { a with currentSpeed := v, maintainViolationSpeed := true, violationSpeed := v }
        | _ => a
      else a
    else a
  else if a.maintainViolationSpeed then { a with currentSpeed := a.violationSpeed }
  else a

/- The per-state permissible-band computation of ArrivalFlight::checkViolation:
returns `some (minSpeed, maxSpeed)` exactly when the C++ code sets
`violation = true`. -/
def arrBandOf (a : Aircraft) : Option (Int × Int) :=
  match a.phase with
  | Phase.arr ArrivalState.HOLDING =>
    if HOLDING_MAX_SPEED < a.currentSpeed then some (HOLDING_MIN_SPEED, HOLDING_MAX_SPEED) else none
  | Phase.arr ArrivalState.APPROACH =>
    if a.currentSpeed < APPROACH_MIN_SPEED ∨ APPROACH_MAX_SPEED < a.currentSpeed then
      some (APPROACH_MIN_SPEED, APPROACH_MAX_SPEED)
    else none
  | Phase.arr ArrivalState.LANDING =>
    if LANDING_START_SPEED < a.currentSpeed ∨
        (LANDING_TIME ≤ a.stateTime ∧ LANDING_END_SPEED < a.currentSpeed) then
      some (0, LANDING_START_SPEED)
    else none
  | Phase.arr ArrivalState.TAXI =>
    if TAXI_MAX_SPEED < a.currentSpeed then some (TAXI_MIN_SPEED, TAXI_MAX_SPEED) else none
  | Phase.arr ArrivalState.AT_GATE =>
    if GATE_MAX_SPEED < a.currentSpeed then some (0, GATE_MAX_SPEED) else none
  | Phase.dep _ => none

/- The per-state permissible-band computation of DepartureFlight::checkViolation. -/
def depBandOf (a : Aircraft) : Option (Int × Int) :=
  match a.phase with
  | Phase.dep DepartureState.AT_GATE =>
    if GATE_MAX_SPEED < a.currentSpeed then some (0, GATE_MAX_SPEED) else none
  | Phase.dep DepartureState.TAXI =>
    if TAXI_MAX_SPEED < a.currentSpeed then some (TAXI_MIN_SPEED, TAXI_MAX_SPEED) else none
  | Phase.dep DepartureState.TAKEOFF_ROLL =>
    if TAKEOFF_MAX_SPEED < a.currentSpeed then some (0, TAKEOFF_MAX_SPEED) else none
  | Phase.dep DepartureState.CLIMB =>
    if CLIMB_MAX_SPEED < a.currentSpeed then some (CLIMB_MIN_SPEED, CLIMB_MAX_SPEED) else none
  | Phase.dep DepartureState.CRUISE =>
    if a.currentSpeed < CRUISE_MIN_SPEED ∨ CRUISE_MAX_SPEED < a.currentSpeed then
      some (CRUISE_MIN_SPEED, CRUISE_MAX_SPEED)
    else none
  | Phase.arr _ => none

/- The common tail of both checkViolation overrides: skip if this state already
produced a violation, otherwise emit a new AVN from the static id counter
`ctr` and record the state as violated.  `now` is the wall-clock creation
time. -/
def runCheck (band : Aircraft → Option (Int × Int)) (a : Aircraft) (ctr now : Nat) :
    Aircraft × Option AVN × Nat :=
  if a.getStateString ∈ a.violatedStates then (a, none, ctr)
  else
    match band a with
    | none => (a, none, ctr)
    | some (mn, mx) =>
      let v := mkAVN ctr a.airline a.flightNumber a.type a.currentSpeed mn mx now
      ({ a with hasActiveViolation := true, currentViolation := some v,
                violatedStates := a.getStateString :: a.violatedStates },
       some v, ctr + 1)

/- ArrivalFlight::checkViolation (source.cpp lines 530-604). -/
def arrCheckViolation (a : Aircraft) (ctr now : Nat) : Aircraft × Option AVN × Nat :=
  runCheck arrBandOf a ctr now

/- DepartureFlight::checkViolation (source.cpp lines 798-871). -/
def depCheckViolation (a : Aircraft) (ctr now : Nat) : Aircraft × Option AVN × Nat :=
  runCheck depBandOf a ctr now

/- The state-transition part of DepartureFlight::updateStatus. -/
def depPhaseStep (a : Aircraft) (d : TickDraws) : Aircraft :=
  let t := a.stateTime + 1
  match a.phase with
  | Phase.dep DepartureState.AT_GATE =>
    if a.assignedRunway ≠ Runway.NONE then
      { a with phase := Phase.dep DepartureState.TAXI, stateTime := 0,
               maintainViolationSpeed := false, currentSpeed := d.taxiSpeed }
    else { a with stateTime := t, currentSpeed := 0 }
  | Phase.dep DepartureState.TAXI =>
    if DEP_TAXI_TIME ≤ t then
      { a with phase := Phase.dep DepartureState.TAKEOFF_ROLL, stateTime := 0,
               maintainViolationSpeed := false, currentSpeed := 0 }
    else { a with stateTime := t }
  | Phase.dep DepartureState.TAKEOFF_ROLL =>
    let v := if a.maintainViolationSpeed then a.currentSpeed
             else min TAKEOFF_MAX_SPEED (TAKEOFF_MAX_SPEED * (t : Int) / (TAKEOFF_TIME : Int))
    if TAKEOFF_TIME ≤ t then
      { a with phase := Phase.dep DepartureState.CLIMB, stateTime := 0,
               maintainViolationSpeed := false, currentSpeed := d.climbSpeed }
    else { a with stateTime := t, currentSpeed := v }
  | Phase.dep DepartureState.CLIMB =>
    if CLIMB_TIME ≤ t then
      { a with phase := Phase.dep DepartureState.CRUISE, stateTime := 0,
               maintainViolationSpeed := false, currentSpeed := d.cruiseSpeed }
    else { a with stateTime := t }
  | Phase.dep DepartureState.CRUISE =>
    { a with stateTime := t }
  | Phase.arr _ => a

/- The stochastic violation-injection part of DepartureFlight::updateStatus
(source.cpp lines 732-790). -/
def depInject (a : Aircraft) (d : TickDraws) : Aircraft :=
  if a.hasActiveViolation = false ∧ a.isEmergency = false ∧ a.maintainViolationSpeed = false then
    if d.chance1 ≤ VIOLATION_PROBABILITY / 3 then
      if d.chance2 ≤ VIOLATION_PROBABILITY then
        match a.phase with
        | Phase.dep DepartureState.TAXI =>
          let v := TAXI_MAX_SPEED + ((d.excess / 2 : Nat) : Int)
          { a with currentSpeed := v, maintainViolationSpeed := true, violationSpeed := v }
        | Phase.dep DepartureState.TAKEOFF_ROLL =>
          if TAKEOFF_TIME / 2 < a.stateTime then
            let v := TAKEOFF_MAX_SPEED + (d.excess : Int)
            { a with currentSpeed := v, maintainViolationSpeed := true, violationSpeed := v }
          else a
        | Phase.dep DepartureState.CLIMB =>
          let v := CLIMB_MAX_SPEED + (d.excess : Int)
          { a with currentSpeed := v, maintainViolationSpeed := true, violationSpeed := v }
        | Phase.dep DepartureState.CRUISE =>
          let v := if 50 < d.cruiseCoin then CRUISE_MAX_SPEED + (d.excess : Int)
                   else CRUISE_MIN_SPEED - (d.excess : Int)
          { a with currentSpeed := v, maintainViolationSpeed := true, violationSpeed := v }
        | _ => a
      else a
    else a
  else if a.maintainViolationSpeed then { a with currentSpeed := a.violationSpeed }
  else a

/- The full virtual updateStatus call on an aircraft: the subclass is selected
by `phase`; the arrival subclass draws notice ids from the arrival-side static
counter `arrCtr`, the departure subclass from the departure-side static counter
`depCtr`.  Returns the mutated aircraft, the notice created by checkViolation
(if any), and the two counters. -/
def updateStatus (a : Aircraft) (d : TickDraws) (now arrCtr depCtr : Nat) :
    Aircraft × Option AVN × Nat × Nat :=
  match a.phase with
  | Phase.arr _ =>
    let b := arrInject (arrPhaseStep a d) d
    let r := arrCheckViolation b arrCtr now
    (r.1, r.2.1, r.2.2, depCtr)
  | Phase.dep _ =>
    let b := depInject (depPhaseStep a d) d
    let r := depCheckViolation b depCtr now
    (r.1, r.2.1, arrCtr, r.2.2)

/- Aircraft::isCompleted via the virtual overrides. -/
def Aircraft.isCompleted (a : Aircraft) : Bool :=
  match a.phase with
  | Phase.arr ArrivalState.AT_GATE => true
  | Phase.dep DepartureState.CRUISE => true
  | _ => false

-- ------------------------- FlightScheduler state -------------------------

/- The airline registry built in the FlightScheduler constructor: name, total
aircraft, active flights.  A `std::map<string, ...>` iterates in key order; the
list below is the six entries in lexicographic key order. -/
def airlineTable : List (String × Nat × Nat) :=
  [("AghaKhan Air Ambulance", 2, 1),
   ("AirBlue", 4, 4),
   ("Blue Dart", 2, 2),
   ("FedEx", 3, 2),
   ("PIA", 6, 4),
   ("Pakistan Airforce", 2, 1)]

/- The `airlineNames` vector built in each generateFlights block: airlines with
`activeFlights > 0` (all six, since activeFlights is never mutated). -/
def eligibleAirlineNames : List String :=
  (airlineTable.filter (fun e => 0 < e.2.2)).map (fun e => e.1)

/- The scheduler state.  Aircraft objects live behind shared_ptr in C++ and are
aliased from `allFlights`, `activeFlights`, the three queues and the occupancy
slots; the embedding stores every aircraft once in the heap `planes` (the
`allFlights` vector) and everywhere else keeps its id. -/
structure SchedState where
  planes : List Aircraft
  activeIds : List Nat
  completedIds : List Nat
  allAVNs : List AVN
  time : Nat
  lastNorth : Nat
  lastSouth : Nat
  lastEast : Nat
  lastWest : Nat
  runwayAAvailable : Bool
  runwayBAvailable : Bool
  runwayCAvailable : Bool
  queueA : List Nat
  queueB : List Nat
  queueC : List Nat
  occA : Option Nat
  occB : Option Nat
  occC : Option Nat
  freeA : Nat
  freeB : Nat
  freeC : Nat
  nextId : Nat
  allFlightsCount : Nat
  arrCtr : Nat
  depCtr : Nat

/- Dereference a shared_ptr: look an aircraft up by id. -/
def findPlane (ps : List Aircraft) (i : Nat) : Option Aircraft :=
  ps.find? (fun a => a.id = i)

/- Mutate the aircraft with id `i` in place. -/
def updatePlane (ps : List Aircraft) (i : Nat) (f : Aircraft → Aircraft) : List Aircraft :=
  ps.map (fun a => if a.id = i then f a else a)

/- The initial FlightScheduler state (constructor, source.cpp lines 932-945;
`Aircraft::nextId = 1000` and the two `static int avnIdCounter = 1000`). -/
def initState : SchedState :=
  { planes := [], activeIds := [], completedIds := [], allAVNs := []
    time := 0, lastNorth := 0, lastSouth := 0, lastEast := 0, lastWest := 0
    runwayAAvailable := true, runwayBAvailable := true, runwayCAvailable := true
    queueA := [], queueB := [], queueC := []
    occA := none, occB := none, occC := none
    freeA := 0, freeB := 0, freeC := 0
    nextId := 1000, allFlightsCount := 0, arrCtr := 1000, depCtr := 1000 }

/- Random draws for one generateFlights stream block: the emergency roll
(1..100), the airline pick (index into `airlineNames`), and — for arrivals —
the initial Holding speed drawn in the ArrivalFlight constructor. -/
structure StreamDraws where
  emergencyDraw : Nat
  airlineIdx : Nat
  holdSpeed : Int
deriving DecidableEq, Repr

def StreamDraws.Valid (sd : StreamDraws) : Prop :=
  1 ≤ sd.emergencyDraw ∧ sd.emergencyDraw ≤ 100 ∧
  sd.airlineIdx < eligibleAirlineNames.length ∧
  HOLDING_MIN_SPEED ≤ sd.holdSpeed ∧ sd.holdSpeed ≤ HOLDING_MAX_SPEED

instance (sd : StreamDraws) : Decidable sd.Valid := by
  unfold StreamDraws.Valid; infer_instance

/- All randomness and wall-clock values consumed during one tick:
one StreamDraws per traffic stream, per-aircraft update draws indexed by the
aircraft's position in `activeIds`, and `now` for `chrono::system_clock::now()`
and `time(nullptr)`. -/
structure Env where
  north : StreamDraws
  south : StreamDraws
  east : StreamDraws
  west : StreamDraws
  draws : Nat → TickDraws
  now : Nat

def Env.Valid (e : Env) : Prop :=
  e.north.Valid ∧ e.south.Valid ∧ e.east.Valid ∧ e.west.Valid ∧ ∀ i, (e.draws i).Valid

/- Build the aircraft a generateFlights block constructs.  `specialAirline` is
the airline that forces FlightType::EMERGENCY for this stream ("Pakistan
Airforce" for North/East, "AghaKhan Air Ambulance" for South, none for West);
`numberBase` is 1000 for arrivals, 2000 for departures. -/
def mkSpawn (isArrival : Bool) (dir : Direction) (specialAirline : Option String)
    (numberBase prob : Nat) (sd : StreamDraws) (now nextId count : Nat) : Aircraft :=
  let isE : Bool := sd.emergencyDraw ≤ prob
  let airline := eligibleAirlineNames.getD sd.airlineIdx "PIA"
  let ty0 : FlightType :=
    if airline = "FedEx" ∨ airline = "Blue Dart" then FlightType.CARGO else FlightType.COMMERCIAL
  let ty : FlightType :=
    if isE = true ∨ specialAirline = some airline then FlightType.EMERGENCY else ty0
  let pri : Nat := if isE = true then 3 else if ty = FlightType.CARGO then 2 else 1
  let fn := airline.take 2 ++ "-" ++ toString (numberBase + count)
  { id := nextId
    flightNumber := fn
    airline := airline
    type := ty
    direction := dir
    priority := pri
    currentSpeed := if isArrival then sd.holdSpeed else 0
    hasActiveViolation := false
    currentViolation := none
    scheduledTime := now
    assignedRunway := Runway.NONE
    isEmergency := isE
    violatedStates := []
    maintainViolationSpeed := false
    violationSpeed := 0
    phase := if isArrival then Phase.arr ArrivalState.HOLDING else Phase.dep DepartureState.AT_GATE
    stateTime := 0 }

/- Insert a freshly spawned aircraft into the scheduler state and push it on
the given runway request queue (`true` = queue A, `false` = queue B). -/
def pushSpawn (toA : Bool) (p : Aircraft) (s : SchedState) : SchedState :=
  { s with planes := s.planes ++ [p]
           activeIds := s.activeIds ++ [p.id]
           queueA := if toA then s.queueA ++ [p.id] else s.queueA
           queueB := if toA then s.queueB else s.queueB ++ [p.id]
           nextId := s.nextId + 1
           allFlightsCount := s.allFlightsCount + 1 }

/- FlightScheduler::generateFlights (source.cpp lines 967-1179): the four
stream blocks, in source order.  Each block fires when the stream interval has
elapsed or at the stream's designated first tick (1..4); it stamps the
stream's last-spawn time and spawns one aircraft. -/
def northStage (e : Env) (s : SchedState) : SchedState :=
  if ARRIVAL_NORTH_INTERVAL ≤ s.time - s.lastNorth ∨ s.time = 1 then
    pushSpawn true
      (mkSpawn true Direction.NORTH (some "Pakistan Airforce") 1000
        NORTH_EMERGENCY_PROBABILITY e.north e.now s.nextId s.allFlightsCount)
      { s with lastNorth := s.time }
  else s

def southStage (e : Env) (s : SchedState) : SchedState :=
  if ARRIVAL_SOUTH_INTERVAL ≤ s.time - s.lastSouth ∨ s.time = 2 then
    pushSpawn true
      (mkSpawn true Direction.SOUTH (some "AghaKhan Air Ambulance") 1000
        SOUTH_EMERGENCY_PROBABILITY e.south e.now s.nextId s.allFlightsCount)
      { s with lastSouth := s.time }
  else s

def eastStage (e : Env) (s : SchedState) : SchedState :=
  if DEPARTURE_EAST_INTERVAL ≤ s.time - s.lastEast ∨ s.time = 3 then
    pushSpawn false
      (mkSpawn false Direction.EAST (some "Pakistan Airforce") 2000
        EAST_EMERGENCY_PROBABILITY e.east e.now s.nextId s.allFlightsCount)
      { s with lastEast := s.time }
  else s

def westStage (e : Env) (s : SchedState) : SchedState :=
  if DEPARTURE_WEST_INTERVAL ≤ s.time - s.lastWest ∨ s.time = 4 then
    pushSpawn false
      (mkSpawn false Direction.WEST none 2000
        WEST_EMERGENCY_PROBABILITY e.west e.now s.nextId s.allFlightsCount)
      { s with lastWest := s.time }
  else s

def generateFlights (e : Env) (s : SchedState) : SchedState :=
  westStage e (eastStage e (southStage e (northStage e s)))

-- ------------------------- runway assignment -------------------------

/- CompareAircraftPriority (source.cpp lines 904-913): in the pop order of the
priority queue, `i` comes no later than `j` iff `i` has strictly higher
priority, or equal priority and a scheduled time no later than `j`'s. -/
def popsBefore (ps : List Aircraft) (i j : Nat) : Bool :=
  let ki := match findPlane ps i with | some a => (a.priority, a.scheduledTime) | none => (0, 0)
  let kj := match findPlane ps j with | some a => (a.priority, a.scheduledTime) | none => (0, 0)
  decide (kj.1 < ki.1 ∨ (ki.1 = kj.1 ∧ ki.2 ≤ kj.2))

/- The order in which a `priority_queue` with CompareAircraftPriority pops a
given multiset of aircraft ids (insertion sort by `popsBefore`; ties in the
comparator are popped in an unspecified order in C++, resolved here by list
position). -/
def sortIns (ps : List Aircraft) (i : Nat) : List Nat → List Nat
  | [] => [i]
  | j :: js => if popsBefore ps i j then i :: j :: js else j :: sortIns ps i js

def sortQ (ps : List Aircraft) : List Nat → List Nat
  | [] => []
  | i :: is => sortIns ps i (sortQ ps is)

/- Attempt to seize runway C for aircraft `a` (a `runwayCAvailable &&
currentSimulationTime >= runwayCFreeTime` guarded block). -/
def tryAssignC (s : SchedState) (i : Nat) : SchedState × Bool :=
  if s.runwayCAvailable = true ∧ s.freeC ≤ s.time then
    ({ s with runwayCAvailable := false, occC := some i,
              planes := updatePlane s.planes i (fun b => { b with assignedRunway := Runway.RWY_C }) },
     true)
  else (s, false)

def tryAssignA (s : SchedState) (i : Nat) : SchedState × Bool :=
  if s.runwayAAvailable = true ∧ s.freeA ≤ s.time then
    ({ s with runwayAAvailable := false, occA := some i,
              planes := updatePlane s.planes i (fun b => { b with assignedRunway := Runway.RWY_A }) },
     true)
  else (s, false)

def tryAssignB (s : SchedState) (i : Nat) : SchedState × Bool :=
  if s.runwayBAvailable = true ∧ s.freeB ≤ s.time then
    ({ s with runwayBAvailable := false, occB := some i,
              planes := updatePlane s.planes i (fun b => { b with assignedRunway := Runway.RWY_B }) },
     true)
  else (s, false)

/- The resource-preference chain each popped aircraft runs through, mirroring
the branch sequence of the C++ loop bodies.  `prefStepC`: Emergency or Cargo
aircraft try RWY-C first.  `nativeStepA`/`nativeStepB`: all aircraft try their
direction-native runway next.  `fallbackStepC`: non-Cargo aircraft fall back to
RWY-C.  Each step is a no-op when the aircraft was already assigned. -/
def prefStepC (s : SchedState) (i : Nat) (a : Aircraft) : SchedState × Bool :=
  if a.type = FlightType.EMERGENCY ∨ a.type = FlightType.CARGO then tryAssignC s i
  else (s, false)

def nativeStepA (i : Nat) (a : Aircraft) (r : SchedState × Bool) : SchedState × Bool :=
  if r.2 = false ∧ (a.direction = Direction.NORTH ∨ a.direction = Direction.SOUTH) then
    tryAssignA r.1 i
  else r

def nativeStepB (i : Nat) (a : Aircraft) (r : SchedState × Bool) : SchedState × Bool :=
  if r.2 = false ∧ (a.direction = Direction.EAST ∨ a.direction = Direction.WEST) then
    tryAssignB r.1 i
  else r

def fallbackStepC (i : Nat) (a : Aircraft) (r : SchedState × Bool) : SchedState × Bool :=
  if r.2 = false ∧ a.type ≠ FlightType.CARGO then tryAssignC r.1 i
  else r

def chainA (s : SchedState) (i : Nat) (a : Aircraft) : SchedState × Bool :=
  fallbackStepC i a (nativeStepA i a (prefStepC s i a))

def chainB (s : SchedState) (i : Nat) (a : Aircraft) : SchedState × Bool :=
  fallbackStepC i a (nativeStepB i a (prefStepC s i a))

/- One iteration of the `while (!runwayAQueue.empty())` loop (source.cpp lines
1188-1243): skip aircraft that already hold a runway, otherwise run the
preference chain; unassigned aircraft are re-queued (the temporary queue is
`queueA` itself, emptied before the fold). -/
def handleAQueueOne (s : SchedState) (i : Nat) : SchedState :=
  match findPlane s.planes i with
  | none => s
  | some a =>
    if a.assignedRunway ≠ Runway.NONE then { s with queueA := s.queueA ++ [i] }
    else if (chainA s i a).2 then (chainA s i a).1
    else { (chainA s i a).1 with queueA := (chainA s i a).1.queueA ++ [i] }

/- One iteration of the runway-B queue loop (East/West departures). -/
def handleBQueueOne (s : SchedState) (i : Nat) : SchedState :=
  match findPlane s.planes i with
  | none => s
  | some a =>
    if a.assignedRunway ≠ Runway.NONE then { s with queueB := s.queueB ++ [i] }
    else if (chainB s i a).2 then (chainB s i a).1
    else { (chainB s i a).1 with queueB := (chainB s i a).1.queueB ++ [i] }

/- One iteration of the runway-C queue loop (everything in it tries RWY-C). -/
def handleCQueueOne (s : SchedState) (i : Nat) : SchedState :=
  match findPlane s.planes i with
  | none => s
  | some a =>
    if a.assignedRunway ≠ Runway.NONE then { s with queueC := s.queueC ++ [i] }
    else if (tryAssignC s i).2 then (tryAssignC s i).1
    else { (tryAssignC s i).1 with queueC := (tryAssignC s i).1.queueC ++ [i] }

def processQueueA (s : SchedState) : SchedState :=
  (sortQ s.planes s.queueA).foldl handleAQueueOne { s with queueA := [] }

def processQueueB (s : SchedState) : SchedState :=
  (sortQ s.planes s.queueB).foldl handleBQueueOne { s with queueB := [] }

def processQueueC (s : SchedState) : SchedState :=
  (sortQ s.planes s.queueC).foldl handleCQueueOne { s with queueC := [] }

/- The release condition of the runway-release scan: Arrival in Taxi or
AtGate, Departure in Climb or Cruise. -/
def releasable (a : Aircraft) : Bool :=
  match a.phase with
  | Phase.arr ArrivalState.TAXI => true
  | Phase.arr ArrivalState.AT_GATE => true
  | Phase.dep DepartureState.CLIMB => true
  | Phase.dep DepartureState.CRUISE => true
  | _ => false

/- One iteration of the release loop at the end of assignRunways
(source.cpp lines 1339-1387). -/
def releaseOne (s : SchedState) (i : Nat) : SchedState :=
  match findPlane s.planes i with
  | none => s
  | some a =>
    if a.assignedRunway ≠ Runway.NONE ∧ releasable a = true then
      let s1 := { s with planes := updatePlane s.planes i (fun b => { b with assignedRunway := Runway.NONE }) }
      match a.assignedRunway with
      | Runway.RWY_A => { s1 with runwayAAvailable := true, occA := none, freeA := s.time }
      | Runway.RWY_B => { s1 with runwayBAvailable := true, occB := none, freeB := s.time }
      | Runway.RWY_C => { s1 with runwayCAvailable := true, occC := none, freeC := s.time }
      | Runway.NONE => s1
    else s

def releaseScan (s : SchedState) : SchedState :=
  s.activeIds.foldl releaseOne s

/- FlightScheduler::assignRunways (source.cpp lines 1181-1388). -/
def assignRunways (s : SchedState) : SchedState :=
  releaseScan (processQueueC (processQueueB (processQueueA s)))

-- ------------------------- per-tick flight update -------------------------

/- One iteration of the FlightScheduler::updateFlights loop (source.cpp lines
1390-1426): run updateStatus, then — if the flight now carries an active
violation and its airline is registered — append the notice to the airline's
record and the global AVN list (the outbound IPC write is not modelled) and
clear the flight's violation flag. -/
def updateOneFlight (e : Env) (s : SchedState) (idx i : Nat) : SchedState :=
  match findPlane s.planes i with
  | none => s
  | some a =>
    let r := updateStatus a (e.draws idx) e.now s.arrCtr s.depCtr
    let a1 := r.1
    let s1 := { s with planes := updatePlane s.planes i (fun _ => a1),
                       arrCtr := r.2.2.1, depCtr := r.2.2.2 }
    if a1.hasActiveViolation = true then
      match a1.currentViolation with
      | some v =>
        if a1.airline ∈ eligibleAirlineNames then
          { s1 with allAVNs := s1.allAVNs ++ [v],
                    planes := updatePlane s1.planes i
                      (fun _ => { a1 with hasActiveViolation := false, currentViolation := none }) }
        else s1
      | none => s1
    else s1

def updateFlights (e : Env) (s : SchedState) : SchedState :=
  (s.activeIds.enum).foldl (fun st p => updateOneFlight e st p.1 p.2) s

/- FlightScheduler::moveCompletedFlights. -/
def moveCompletedFlights (s : SchedState) : SchedState :=
  let done := s.activeIds.filter (fun i =>
    match findPlane s.planes i with | some a => a.isCompleted | none => false)
  let still := s.activeIds.filter (fun i =>
    match findPlane s.planes i with | some a => !a.isCompleted | none => true)
  { s with activeIds := still, completedIds := s.completedIds ++ done }

/- FlightScheduler::updateSimulation: one tick. -/
def tick (e : Env) (s : SchedState) : SchedState :=
  moveCompletedFlights (updateFlights e (assignRunways (generateFlights e { s with time := s.time + 1 })))

/- The states the scheduler can reach from its initial state under any
sequence of in-range random draws. -/
inductive Reachable : SchedState → Prop
  | init : Reachable initState
  | step {s : SchedState} (e : Env) : Reachable s → e.Valid → Reachable (tick e s)

-- ------------------------- basic lemmas about the heap -------------------------

theorem findPlane_mem {ps : List Aircraft} {i : Nat} {a : Aircraft}
    (h : findPlane ps i = some a) : a ∈ ps :=
  List.mem_of_find?_eq_some h

theorem findPlane_id {ps : List Aircraft} {i : Nat} {a : Aircraft}
    (h : findPlane ps i = some a) : a.id = i := by
  have h2 := List.find?_some h
  simpa using h2

theorem updatePlane_cons (a : Aircraft) (ps : List Aircraft) (i : Nat) (f : Aircraft → Aircraft) :
    updatePlane (a :: ps) i f = (if a.id = i then f a else a) :: updatePlane ps i f := rfl

theorem mem_updatePlane {ps : List Aircraft} {i : Nat} {f : Aircraft → Aircraft} {b : Aircraft}
    (h : b ∈ updatePlane ps i f) : ∃ a, a ∈ ps ∧ b = if a.id = i then f a else a := by
  unfold updatePlane at h
  rcases List.mem_map.mp h with ⟨a, ha, hb⟩
  exact ⟨a, ha, hb.symm⟩

theorem updatePlane_ids (ps : List Aircraft) (i : Nat) (f : Aircraft → Aircraft)
    (hid : ∀ b : Aircraft, b.id = i → (f b).id = b.id) :
    (updatePlane ps i f).map (fun a => a.id) = ps.map (fun a => a.id) := by
  induction ps with
  | nil => rfl
  | cons a ps ih =>
    rw [updatePlane_cons, List.map_cons, List.map_cons, ih]
    by_cases h : a.id = i
    · rw [if_pos h, hid a h]
    · rw [if_neg h]

theorem findPlane_updatePlane_ne (ps : List Aircraft) (i j : Nat) (f : Aircraft → Aircraft)
    (hid : ∀ b : Aircraft, b.id = i → (f b).id = b.id) (hne : j ≠ i) :
    findPlane (updatePlane ps i f) j = findPlane ps j := by
  induction ps with
  | nil => rfl
  | cons a ps ih =>
    rw [updatePlane_cons]
    by_cases h : a.id = i
    · have hfa : (f a).id = a.id := hid a h
      unfold findPlane
      rw [List.find?_cons_of_neg, List.find?_cons_of_neg]
      · exact ih
      · simp [h]; omega
      · simp [hfa, h]; omega
    · by_cases hj : a.id = j
      · unfold findPlane
        rw [if_neg h, List.find?_cons_of_pos, List.find?_cons_of_pos] <;> simp [hj]
      · unfold findPlane
        rw [if_neg h, List.find?_cons_of_neg, List.find?_cons_of_neg]
        · exact ih
        · simp [hj]
        · simp [hj]

theorem findPlane_updatePlane_self (ps : List Aircraft) (i : Nat) (f : Aircraft → Aircraft)
    (hid : ∀ b : Aircraft, b.id = i → (f b).id = b.id) :
    findPlane (updatePlane ps i f) i = (findPlane ps i).map f := by
  induction ps with
  | nil => rfl
  | cons a ps ih =>
    rw [updatePlane_cons]
    by_cases h : a.id = i
    · have hfa : (f a).id = a.id := hid a h
      unfold findPlane
      rw [List.find?_cons_of_pos, List.find?_cons_of_pos] <;> simp [hfa, h]
    · unfold findPlane
      rw [if_neg h, List.find?_cons_of_neg, List.find?_cons_of_neg]
      · exact ih
      · simp [h]
      · simp [h]

theorem findPlane_append_left {ps qs : List Aircraft} {i : Nat} {a : Aircraft}
    (h : findPlane ps i = some a) : findPlane (ps ++ qs) i = some a := by
  unfold findPlane at *
  induction ps with
  | nil => simp at h
  | cons b ps ih =>
    by_cases hb : b.id = i
    · rw [List.find?_cons_of_pos _ (by simp [hb])] at h
      rw [List.cons_append, List.find?_cons_of_pos _ (by simp [hb])]
      exact h
    · rw [List.find?_cons_of_neg _ (by simp [hb])] at h
      rw [List.cons_append, List.find?_cons_of_neg _ (by simp [hb])]
      exact ih h

theorem foldl_preserve {β : Type} {γ : Type} {P : γ → Prop} {f : γ → β → γ}
    (hf : ∀ s x, P s → P (f s x)) :
    ∀ (l : List β) (s : γ), P s → P (l.foldl f s)
  | [], _, h => h
  | x :: l, s, h => foldl_preserve hf l (f s x) (hf s x h)

theorem countP_one_get {α : Type} {p : α → Bool} :
    ∀ {l : List α}, 1 ≤ l.countP p → ∃ i : Fin l.length, p (l.get i) = true := by
  intro l
  induction l with
  | nil => intro h; simp [List.countP_nil] at h
  | cons a l ih =>
    intro h
    by_cases hp : p a = true
    · exact ⟨⟨0, by simp⟩, hp⟩
    · rw [List.countP_cons, if_neg hp] at h
      rcases ih (by omega) with ⟨i, hi⟩
      exact ⟨⟨i.1 + 1, by simp⟩, by simpa using hi⟩

theorem countP_two_get {α : Type} {p : α → Bool} :
    ∀ {l : List α}, 2 ≤ l.countP p →
      ∃ i j : Fin l.length, i ≠ j ∧ p (l.get i) = true ∧ p (l.get j) = true := by
  intro l
  induction l with
  | nil => intro h; simp [List.countP_nil] at h
  | cons a l ih =>
    intro h
    rw [List.countP_cons] at h
    by_cases hp : p a = true
    · rw [if_pos hp] at h
      rcases countP_one_get (p := p) (l := l) (by omega) with ⟨i, hi⟩
      refine ⟨⟨0, by simp⟩, ⟨i.1 + 1, by simp⟩, ?_, hp, by simpa using hi⟩
      intro hc
      have : (0 : Nat) = i.1 + 1 := congrArg Fin.val hc
      omega
    · rw [if_neg hp] at h
      rcases ih (by omega) with ⟨i, j, hij, hi, hj⟩
      refine ⟨⟨i.1 + 1, by simp⟩, ⟨j.1 + 1, by simp⟩, ?_, by simpa using hi, by simpa using hj⟩
      intro hc
      have : i.1 + 1 = j.1 + 1 := congrArg Fin.val hc
      exact hij (Fin.ext (by omega))

-- ---------------- field preservation through the update stages ----------------

/- Fields of the base class that updateStatus never writes. -/
def coreSig (a : Aircraft) : Nat × Runway × FlightType × Direction × Nat × Bool × String × String × Nat :=
  (a.id, a.assignedRunway, a.type, a.direction, a.priority, a.isEmergency, a.airline,
   a.flightNumber, a.scheduledTime)

/- Violation bookkeeping fields. -/
def violSig (a : Aircraft) : List String × Bool × Option AVN :=
  (a.violatedStates, a.hasActiveViolation, a.currentViolation)

theorem arrPhaseStep_coreSig (a : Aircraft) (d : TickDraws) :
    coreSig (arrPhaseStep a d) = coreSig a := by
  unfold arrPhaseStep
  repeat' split
  all_goals simp [coreSig, apply_ite]

theorem arrPhaseStep_violSig (a : Aircraft) (d : TickDraws) :
    violSig (arrPhaseStep a d) = violSig a := by
  unfold arrPhaseStep
  repeat' split
  all_goals simp [violSig, apply_ite]

theorem depPhaseStep_coreSig (a : Aircraft) (d : TickDraws) :
    coreSig (depPhaseStep a d) = coreSig a := by
  unfold depPhaseStep
  repeat' split
  all_goals simp [coreSig, apply_ite]

theorem depPhaseStep_violSig (a : Aircraft) (d : TickDraws) :
    violSig (depPhaseStep a d) = violSig a := by
  unfold depPhaseStep
  repeat' split
  all_goals simp [violSig, apply_ite]

theorem arrInject_coreSig (a : Aircraft) (d : TickDraws) :
    coreSig (arrInject a d) = coreSig a := by
  unfold arrInject
  repeat' split
  all_goals simp [coreSig, apply_ite]

theorem arrInject_violSig (a : Aircraft) (d : TickDraws) :
    violSig (arrInject a d) = violSig a := by
  unfold arrInject
  repeat' split
  all_goals simp [violSig, apply_ite]

theorem arrInject_phaseSig (a : Aircraft) (d : TickDraws) :
    (arrInject a d).phase = a.phase ∧ (arrInject a d).stateTime = a.stateTime := by
  unfold arrInject
  repeat' split
  all_goals simp [apply_ite]

theorem depInject_coreSig (a : Aircraft) (d : TickDraws) :
    coreSig (depInject a d) = coreSig a := by
  unfold depInject
  repeat' split
  all_goals simp [coreSig, apply_ite]

theorem depInject_violSig (a : Aircraft) (d : TickDraws) :
    violSig (depInject a d) = violSig a := by
  unfold depInject
  repeat' split
  all_goals simp [violSig, apply_ite]

theorem depInject_phaseSig (a : Aircraft) (d : TickDraws) :
    (depInject a d).phase = a.phase ∧ (depInject a d).stateTime = a.stateTime := by
  unfold depInject
  repeat' split
  all_goals simp [apply_ite]

theorem runCheck_coreSig (band : Aircraft → Option (Int × Int)) (a : Aircraft) (ctr now : Nat) :
    coreSig (runCheck band a ctr now).1 = coreSig a ∧
    (runCheck band a ctr now).1.phase = a.phase ∧
    (runCheck band a ctr now).1.stateTime = a.stateTime ∧
    (runCheck band a ctr now).1.currentSpeed = a.currentSpeed ∧
    (runCheck band a ctr now).1.maintainViolationSpeed = a.maintainViolationSpeed := by
  unfold runCheck
  split
  · simp
  · rcases band a with _ | ⟨mn, mx⟩
    · simp
    · simp [coreSig]

/- Exactly what runCheck can return: either the aircraft is untouched and no
notice is emitted, or a notice is created from counter `ctr` for the current
state string, which was not yet in `violatedStates`. -/
theorem runCheck_cases (band : Aircraft → Option (Int × Int)) (a : Aircraft) (ctr now : Nat) :
    (runCheck band a ctr now = (a, none, ctr)) ∨
    (∃ mn mx, band a = some (mn, mx) ∧ a.getStateString ∉ a.violatedStates ∧
      runCheck band a ctr now =
        ({ a with hasActiveViolation := true,
                  currentViolation := some (mkAVN ctr a.airline a.flightNumber a.type a.currentSpeed mn mx now),
                  violatedStates := a.getStateString :: a.violatedStates },
         some (mkAVN ctr a.airline a.flightNumber a.type a.currentSpeed mn mx now), ctr + 1)) := by
  unfold runCheck
  split
  · exact Or.inl rfl
  · rcases hb : band a with _ | ⟨mn, mx⟩
    · exact Or.inl rfl
    · right
      exact ⟨mn, mx, rfl, by assumption, rfl⟩

theorem updateStatus_coreSig (a : Aircraft) (d : TickDraws) (now ac dc : Nat) :
    coreSig (updateStatus a d now ac dc).1 = coreSig a := by
  unfold updateStatus arrCheckViolation depCheckViolation
  rcases hp : a.phase with s | s
  · simp only
    rw [(runCheck_coreSig arrBandOf (arrInject (arrPhaseStep a d) d) ac now).1,
        arrInject_coreSig, arrPhaseStep_coreSig]
  · simp only
    rw [(runCheck_coreSig depBandOf (depInject (depPhaseStep a d) d) dc now).1,
        depInject_coreSig, depPhaseStep_coreSig]

-- ------------------------- the scheduler invariant -------------------------

/- The speed band an aircraft's reported speed stays in along any run in which
it is never injected with a violation speed (used for Emergency-flagged
aircraft). -/
def speedOK (a : Aircraft) : Prop :=
  match a.phase with
  | Phase.arr ArrivalState.HOLDING => a.currentSpeed ≤ HOLDING_MAX_SPEED
  | Phase.arr ArrivalState.APPROACH => APPROACH_MIN_SPEED ≤ a.currentSpeed ∧ a.currentSpeed ≤ APPROACH_MAX_SPEED
  | Phase.arr ArrivalState.LANDING => a.currentSpeed ≤ LANDING_START_SPEED
  | Phase.arr ArrivalState.TAXI => a.currentSpeed ≤ TAXI_MAX_SPEED
  | Phase.arr ArrivalState.AT_GATE => a.currentSpeed ≤ GATE_MAX_SPEED
  | Phase.dep DepartureState.AT_GATE => a.currentSpeed ≤ GATE_MAX_SPEED
  | Phase.dep DepartureState.TAXI => a.currentSpeed ≤ TAXI_MAX_SPEED
  | Phase.dep DepartureState.TAKEOFF_ROLL => a.currentSpeed ≤ TAKEOFF_MAX_SPEED
  | Phase.dep DepartureState.CLIMB => a.currentSpeed ≤ CLIMB_MAX_SPEED
  | Phase.dep DepartureState.CRUISE => CRUISE_MIN_SPEED ≤ a.currentSpeed ∧ a.currentSpeed ≤ CRUISE_MAX_SPEED

/- The per-aircraft invariant that holds at every tick boundary. -/
def PlaneInv (a : Aircraft) : Prop :=
  a.priority = (if a.isEmergency = true then 3 else if a.type = FlightType.CARGO then 2 else 1) ∧
  (a.isEmergency = true → a.type = FlightType.EMERGENCY) ∧
  a.airline ∈ eligibleAirlineNames ∧
  a.hasActiveViolation = false ∧
  a.currentViolation = none ∧
  (a.isEmergency = true → a.violatedStates = [] ∧ a.maintainViolationSpeed = false ∧ speedOK a)

/- Agreement between one runway's occupant slot and the aircraft heap: the
occupant (if any) is an aircraft whose `assignedRunway` names this runway, and
every aircraft naming this runway is the occupant. -/
def occOk (ps : List Aircraft) (X : Runway) (o : Option Nat) : Prop :=
  (∀ i, o = some i → ∃ a, findPlane ps i = some a ∧ a.assignedRunway = X) ∧
  (∀ a, a ∈ ps → a.assignedRunway = X → o = some a.id)

/- Ledger bookkeeping: the arrival-issued ids in the AVN list are exactly
1000..arrCtr-1 and the departure-issued ids exactly 1000..depCtr-1, each
occurring once per side. -/
def LedgerOk (avns : List AVN) (ac dc : Nat) : Prop :=
  1000 ≤ ac ∧ 1000 ≤ dc ∧
  ∀ k, avns.countP (fun v => v.id == k) =
    (if 1000 ≤ k ∧ k < ac then 1 else 0) + (if 1000 ≤ k ∧ k < dc then 1 else 0)

/- The inductive invariant of the scheduler, maintained by every tick. -/
structure SchedInv (s : SchedState) : Prop where
  nodup : (s.planes.map (fun a => a.id)).Nodup
  fresh : ∀ a, a ∈ s.planes → a.id < s.nextId
  occA : occOk s.planes Runway.RWY_A s.occA
  occB : occOk s.planes Runway.RWY_B s.occB
  occC : occOk s.planes Runway.RWY_C s.occC
  availA : s.runwayAAvailable = s.occA.isNone
  availB : s.runwayBAvailable = s.occB.isNone
  availC : s.runwayCAvailable = s.occC.isNone
  plane : ∀ a, a ∈ s.planes → PlaneInv a
  ledger : LedgerOk s.allAVNs s.arrCtr s.depCtr

theorem inv_of_eq {s s' : SchedState} (h : SchedInv s)
    (hp : s'.planes = s.planes) (hoA : s'.occA = s.occA) (hoB : s'.occB = s.occB)
    (hoC : s'.occC = s.occC) (haA : s'.runwayAAvailable = s.runwayAAvailable)
    (haB : s'.runwayBAvailable = s.runwayBAvailable)
    (haC : s'.runwayCAvailable = s.runwayCAvailable)
    (hn : s'.nextId = s.nextId) (hl : s'.allAVNs = s.allAVNs)
    (hac : s'.arrCtr = s.arrCtr) (hdc : s'.depCtr = s.depCtr) : SchedInv s' := by
  constructor
  · rw [hp]; exact h.nodup
  · rw [hp, hn]; exact h.fresh
  · rw [hp, hoA]; exact h.occA
  · rw [hp, hoB]; exact h.occB
  · rw [hp, hoC]; exact h.occC
  · rw [haA, hoA]; exact h.availA
  · rw [haB, hoB]; exact h.availB
  · rw [haC, hoC]; exact h.availC
  · rw [hp]; exact h.plane
  · rw [hl, hac, hdc]; exact h.ledger

theorem speedOK_congr {a b : Aircraft} (hph : b.phase = a.phase)
    (hsp : b.currentSpeed = a.currentSpeed) : speedOK b ↔ speedOK a := by
  unfold speedOK
  rw [hph, hsp]

theorem planeInv_congr {a b : Aircraft} (h1 : b.priority = a.priority)
    (h2 : b.isEmergency = a.isEmergency) (h3 : b.type = a.type) (h4 : b.airline = a.airline)
    (h5 : b.hasActiveViolation = a.hasActiveViolation)
    (h6 : b.currentViolation = a.currentViolation) (h7 : b.violatedStates = a.violatedStates)
    (h8 : b.maintainViolationSpeed = a.maintainViolationSpeed) (h9 : b.phase = a.phase)
    (h10 : b.currentSpeed = a.currentSpeed) : PlaneInv b ↔ PlaneInv a := by
  unfold PlaneInv
  rw [h1, h2, h3, h4, h5, h6, h7, h8, speedOK_congr h9 h10]

theorem planeInv_set_runway (a : Aircraft) (r : Runway) :
    PlaneInv { a with assignedRunway := r } ↔ PlaneInv a :=
  planeInv_congr rfl rfl rfl rfl rfl rfl rfl rfl rfl rfl

-- ------------------------- spawn preserves the invariant -------------------------

theorem eligibleAirlineNames_eq :
    eligibleAirlineNames =
      ["AghaKhan Air Ambulance", "AirBlue", "Blue Dart", "FedEx", "PIA", "Pakistan Airforce"] := by
  rfl

theorem airline_getD_mem (idx : Nat) :
    eligibleAirlineNames.getD idx "PIA" ∈ eligibleAirlineNames := by
  match idx with
  | 0 => decide
  | 1 => decide
  | 2 => decide
  | 3 => decide
  | 4 => decide
  | 5 => decide
  | n + 6 =>
    rw [eligibleAirlineNames_eq]
    simp only [List.getD_cons_succ, List.getD_nil]
    decide

theorem mkSpawn_id (isArrival : Bool) (dir : Direction) (sp : Option String)
    (nb prob : Nat) (sd : StreamDraws) (now nid cnt : Nat) :
    (mkSpawn isArrival dir sp nb prob sd now nid cnt).id = nid := by
  simp [mkSpawn]

theorem mkSpawn_runway (isArrival : Bool) (dir : Direction) (sp : Option String)
    (nb prob : Nat) (sd : StreamDraws) (now nid cnt : Nat) :
    (mkSpawn isArrival dir sp nb prob sd now nid cnt).assignedRunway = Runway.NONE := by
  simp [mkSpawn]

theorem mkSpawn_planeInv (isArrival : Bool) (dir : Direction) (sp : Option String)
    (nb prob : Nat) (sd : StreamDraws) (now nid cnt : Nat) (hv : sd.Valid) :
    PlaneInv (mkSpawn isArrival dir sp nb prob sd now nid cnt) := by
  obtain ⟨-, -, -, hlo, hhi⟩ := hv
  cases isArrival
  · refine ⟨rfl, ?_, airline_getD_mem sd.airlineIdx, rfl, rfl, ?_⟩
    · intro he
      simp [mkSpawn] at he ⊢
      simp [he]
    · intro he
      refine ⟨rfl, rfl, ?_⟩
      simp [mkSpawn, speedOK, GATE_MAX_SPEED]
  · refine ⟨rfl, ?_, airline_getD_mem sd.airlineIdx, rfl, rfl, ?_⟩
    · intro he
      simp [mkSpawn] at he ⊢
      simp [he]
    · intro he
      refine ⟨rfl, rfl, ?_⟩
      simp only [mkSpawn, speedOK]
      exact hhi

theorem pushSpawn_inv (toA : Bool) (p : Aircraft) (s : SchedState)
    (hid : p.id = s.nextId) (hrw : p.assignedRunway = Runway.NONE) (hpi : PlaneInv p)
    (h : SchedInv s) : SchedInv (pushSpawn toA p s) := by
  have freshNe : ∀ a, a ∈ s.planes → a.id ≠ p.id := by
    intro a ha
    have := h.fresh a ha
    omega
  constructor
  · show ((s.planes ++ [p]).map (fun a => a.id)).Nodup
    rw [List.map_append, List.nodup_append]
    refine ⟨h.nodup, by simp, ?_⟩
    intro x hx
    rcases List.mem_map.mp hx with ⟨a, ha, rfl⟩
    simp only [List.map_cons, List.map_nil]
    intro hc
    rcases List.mem_singleton.mp hc with hc
    exact freshNe a ha hc
  · intro a ha
    show a.id < s.nextId + 1
    rcases List.mem_append.mp ha with ha | ha
    · exact Nat.lt_succ_of_lt (h.fresh a ha)
    · rcases List.mem_singleton.mp ha with rfl
      omega
  · -- occA
    refine ⟨?_, ?_⟩
    · intro i hi
      rcases h.occA.1 i hi with ⟨a, hfa, hra⟩
      exact ⟨a, findPlane_append_left hfa, hra⟩
    · intro a ha hra
      rcases List.mem_append.mp ha with ha | ha
      · exact h.occA.2 a ha hra
      · rcases List.mem_singleton.mp ha with rfl
        rw [hrw] at hra
        cases hra
  · refine ⟨?_, ?_⟩
    · intro i hi
      rcases h.occB.1 i hi with ⟨a, hfa, hra⟩
      exact ⟨a, findPlane_append_left hfa, hra⟩
    · intro a ha hra
      rcases List.mem_append.mp ha with ha | ha
      · exact h.occB.2 a ha hra
      · rcases List.mem_singleton.mp ha with rfl
        rw [hrw] at hra
        cases hra
  · refine ⟨?_, ?_⟩
    · intro i hi
      rcases h.occC.1 i hi with ⟨a, hfa, hra⟩
      exact ⟨a, findPlane_append_left hfa, hra⟩
    · intro a ha hra
      rcases List.mem_append.mp ha with ha | ha
      · exact h.occC.2 a ha hra
      · rcases List.mem_singleton.mp ha with rfl
        rw [hrw] at hra
        cases hra
  · exact h.availA
  · exact h.availB
  · exact h.availC
  · intro a ha
    rcases List.mem_append.mp ha with ha | ha
    · exact h.plane a ha
    · rcases List.mem_singleton.mp ha with rfl
      exact hpi
  · exact h.ledger

theorem northStage_inv (e : Env) (s : SchedState) (hv : e.north.Valid) (h : SchedInv s) :
    SchedInv (northStage e s) := by
  unfold northStage
  split
  · apply pushSpawn_inv _ _ _ (mkSpawn_id _ _ _ _ _ _ _ _ _) (mkSpawn_runway _ _ _ _ _ _ _ _ _)
      (mkSpawn_planeInv _ _ _ _ _ _ _ _ _ hv)
    exact inv_of_eq h rfl rfl rfl rfl rfl rfl rfl rfl rfl rfl rfl
  · exact h

theorem southStage_inv (e : Env) (s : SchedState) (hv : e.south.Valid) (h : SchedInv s) :
    SchedInv (southStage e s) := by
  unfold southStage
  split
  · apply pushSpawn_inv _ _ _ (mkSpawn_id _ _ _ _ _ _ _ _ _) (mkSpawn_runway _ _ _ _ _ _ _ _ _)
      (mkSpawn_planeInv _ _ _ _ _ _ _ _ _ hv)
    exact inv_of_eq h rfl rfl rfl rfl rfl rfl rfl rfl rfl rfl rfl
  · exact h

theorem eastStage_inv (e : Env) (s : SchedState) (hv : e.east.Valid) (h : SchedInv s) :
    SchedInv (eastStage e s) := by
  unfold eastStage
  split
  · apply pushSpawn_inv _ _ _ (mkSpawn_id _ _ _ _ _ _ _ _ _) (mkSpawn_runway _ _ _ _ _ _ _ _ _)
      (mkSpawn_planeInv _ _ _ _ _ _ _ _ _ hv)
    exact inv_of_eq h rfl rfl rfl rfl rfl rfl rfl rfl rfl rfl rfl
  · exact h

theorem westStage_inv (e : Env) (s : SchedState) (hv : e.west.Valid) (h : SchedInv s) :
    SchedInv (westStage e s) := by
  unfold westStage
  split
  · apply pushSpawn_inv _ _ _ (mkSpawn_id _ _ _ _ _ _ _ _ _) (mkSpawn_runway _ _ _ _ _ _ _ _ _)
      (mkSpawn_planeInv _ _ _ _ _ _ _ _ _ hv)
    exact inv_of_eq h rfl rfl rfl rfl rfl rfl rfl rfl rfl rfl rfl
  · exact h

theorem generateFlights_inv (e : Env) (s : SchedState) (he : e.Valid) (h : SchedInv s) :
    SchedInv (generateFlights e s) := by
  obtain ⟨hN, hS, hE, hW, -⟩ := he
  exact westStage_inv e _ hW (eastStage_inv e _ hE (southStage_inv e _ hS (northStage_inv e _ hN h)))

-- ------------------------- assignment preserves the invariant -------------------------

theorem tryAssignC_inv (s : SchedState) (i : Nat) (a : Aircraft)
    (hf : findPlane s.planes i = some a) (hn : a.assignedRunway = Runway.NONE)
    (h : SchedInv s) :
    SchedInv (tryAssignC s i).1 ∧ ((tryAssignC s i).2 = false → (tryAssignC s i).1 = s) := by
  have hid : ∀ b : Aircraft, b.id = i →
      ((fun c : Aircraft => { c with assignedRunway := Runway.RWY_C }) b).id = b.id := fun b _ => rfl
  unfold tryAssignC
  split
  case isFalse hC => exact ⟨h, fun _ => rfl⟩
  case isTrue hC =>
    refine ⟨?_, by simp⟩
    obtain ⟨hav, hfree⟩ := hC
    have hoccC : s.occC = none := by
      have h2 := h.availC
      rw [hav] at h2
      exact Option.isNone_iff_eq_none.mp h2.symm
    constructor
    · show ((updatePlane s.planes i _).map (fun a => a.id)).Nodup
      rw [updatePlane_ids _ _ _ hid]
      exact h.nodup
    · intro b hb
      rcases mem_updatePlane hb with ⟨c, hc, hbc⟩
      have hbid : b.id = c.id := by rw [hbc]; split <;> rfl
      show b.id < s.nextId
      rw [hbid]
      exact h.fresh c hc
    · -- occA
      refine ⟨?_, ?_⟩
      · intro j hj
        rcases h.occA.1 j hj with ⟨b, hfb, hrb⟩
        have hji : j ≠ i := by
          intro hj2
          rw [hj2, hf] at hfb
          cases hfb
          rw [hn] at hrb
          cases hrb
        refine ⟨b, ?_, hrb⟩
        show findPlane (updatePlane s.planes i _) j = some b
        rw [findPlane_updatePlane_ne _ _ _ _ hid hji]
        exact hfb
      · intro b hb hrb
        rcases mem_updatePlane hb with ⟨c, hc, hbc⟩
        by_cases hci : c.id = i
        · rw [if_pos hci] at hbc
          rw [hbc] at hrb
          cases hrb
        · rw [if_neg hci] at hbc
          subst hbc
          exact h.occA.2 b hc hrb
    · -- occB
      refine ⟨?_, ?_⟩
      · intro j hj
        rcases h.occB.1 j hj with ⟨b, hfb, hrb⟩
        have hji : j ≠ i := by
          intro hj2
          rw [hj2, hf] at hfb
          cases hfb
          rw [hn] at hrb
          cases hrb
        refine ⟨b, ?_, hrb⟩
        show findPlane (updatePlane s.planes i _) j = some b
        rw [findPlane_updatePlane_ne _ _ _ _ hid hji]
        exact hfb
      · intro b hb hrb
        rcases mem_updatePlane hb with ⟨c, hc, hbc⟩
        by_cases hci : c.id = i
        · rw [if_pos hci] at hbc
          rw [hbc] at hrb
          cases hrb
        · rw [if_neg hci] at hbc
          subst hbc
          exact h.occB.2 b hc hrb
    · -- occC : the new occupant is i
      refine ⟨?_, ?_⟩
      · intro j hj
        have hji : j = i := by
          have : some i = some j := hj
          exact (Option.some.inj this).symm
        subst hji
        refine ⟨{ a with assignedRunway := Runway.RWY_C }, ?_, rfl⟩
        show findPlane (updatePlane s.planes j _) j = some _
        rw [findPlane_updatePlane_self _ _ _ hid, hf]
        rfl
      · intro b hb hrb
        rcases mem_updatePlane hb with ⟨c, hc, hbc⟩
        by_cases hci : c.id = i
        · have hbid : b.id = i := by rw [hbc, if_pos hci]; exact hci
          show some i = some b.id
          rw [hbid]
        · rw [if_neg hci] at hbc
          subst hbc
          have h2 := h.occC.2 b hc hrb
          rw [hoccC] at h2
          cases h2
    · exact h.availA
    · exact h.availB
    · rfl
    · intro b hb
      rcases mem_updatePlane hb with ⟨c, hc, hbc⟩
      by_cases hci : c.id = i
      · rw [if_pos hci] at hbc
        subst hbc
        exact (planeInv_set_runway c Runway.RWY_C).mpr (h.plane c hc)
      · rw [if_neg hci] at hbc
        subst hbc
        exact h.plane b hc
    · exact h.ledger

theorem tryAssignA_inv (s : SchedState) (i : Nat) (a : Aircraft)
    (hf : findPlane s.planes i = some a) (hn : a.assignedRunway = Runway.NONE)
    (h : SchedInv s) :
    SchedInv (tryAssignA s i).1 ∧ ((tryAssignA s i).2 = false → (tryAssignA s i).1 = s) := by
  have hid : ∀ b : Aircraft, b.id = i →
      ((fun c : Aircraft => { c with assignedRunway := Runway.RWY_A }) b).id = b.id := fun b _ => rfl
  unfold tryAssignA
  split
  case isFalse hC => exact ⟨h, fun _ => rfl⟩
  case isTrue hC =>
    refine ⟨?_, by simp⟩
    obtain ⟨hav, hfree⟩ := hC
    have hoccA : s.occA = none := by
      have h2 := h.availA
      rw [hav] at h2
      exact Option.isNone_iff_eq_none.mp h2.symm
    constructor
    · show ((updatePlane s.planes i _).map (fun a => a.id)).Nodup
      rw [updatePlane_ids _ _ _ hid]
      exact h.nodup
    · intro b hb
      rcases mem_updatePlane hb with ⟨c, hc, hbc⟩
      have hbid : b.id = c.id := by rw [hbc]; split <;> rfl
      show b.id < s.nextId
      rw [hbid]
      exact h.fresh c hc
    · -- occA : the new occupant is i
      refine ⟨?_, ?_⟩
      · intro j hj
        have hji : j = i := by
          have : some i = some j := hj
          exact (Option.some.inj this).symm
        subst hji
        refine ⟨{ a with assignedRunway := Runway.RWY_A }, ?_, rfl⟩
        show findPlane (updatePlane s.planes j _) j = some _
        rw [findPlane_updatePlane_self _ _ _ hid, hf]
        rfl
      · intro b hb hrb
        rcases mem_updatePlane hb with ⟨c, hc, hbc⟩
        by_cases hci : c.id = i
        · have hbid : b.id = i := by rw [hbc, if_pos hci]; exact hci
          show some i = some b.id
          rw [hbid]
        · rw [if_neg hci] at hbc
          subst hbc
          have h2 := h.occA.2 b hc hrb
          rw [hoccA] at h2
          cases h2
    · -- occB unchanged
      refine ⟨?_, ?_⟩
      · intro j hj
        rcases h.occB.1 j hj with ⟨b, hfb, hrb⟩
        have hji : j ≠ i := by
          intro hj2
          rw [hj2, hf] at hfb
          cases hfb
          rw [hn] at hrb
          cases hrb
        refine ⟨b, ?_, hrb⟩
        show findPlane (updatePlane s.planes i _) j = some b
        rw [findPlane_updatePlane_ne _ _ _ _ hid hji]
        exact hfb
      · intro b hb hrb
        rcases mem_updatePlane hb with ⟨c, hc, hbc⟩
        by_cases hci : c.id = i
        · rw [if_pos hci] at hbc
          rw [hbc] at hrb
          cases hrb
        · rw [if_neg hci] at hbc
          subst hbc
          exact h.occB.2 b hc hrb
    · -- occC unchanged
      refine ⟨?_, ?_⟩
      · intro j hj
        rcases h.occC.1 j hj with ⟨b, hfb, hrb⟩
        have hji : j ≠ i := by
          intro hj2
          rw [hj2, hf] at hfb
          cases hfb
          rw [hn] at hrb
          cases hrb
        refine ⟨b, ?_, hrb⟩
        show findPlane (updatePlane s.planes i _) j = some b
        rw [findPlane_updatePlane_ne _ _ _ _ hid hji]
        exact hfb
      · intro b hb hrb
        rcases mem_updatePlane hb with ⟨c, hc, hbc⟩
        by_cases hci : c.id = i
        · rw [if_pos hci] at hbc
          rw [hbc] at hrb
          cases hrb
        · rw [if_neg hci] at hbc
          subst hbc
          exact h.occC.2 b hc hrb
    · rfl
    · exact h.availB
    · exact h.availC
    · intro b hb
      rcases mem_updatePlane hb with ⟨c, hc, hbc⟩
      by_cases hci : c.id = i
      · rw [if_pos hci] at hbc
        subst hbc
        exact (planeInv_set_runway c Runway.RWY_A).mpr (h.plane c hc)
      · rw [if_neg hci] at hbc
        subst hbc
        exact h.plane b hc
    · exact h.ledger

theorem tryAssignB_inv (s : SchedState) (i : Nat) (a : Aircraft)
    (hf : findPlane s.planes i = some a) (hn : a.assignedRunway = Runway.NONE)
    (h : SchedInv s) :
    SchedInv (tryAssignB s i).1 ∧ ((tryAssignB s i).2 = false → (tryAssignB s i).1 = s) := by
  have hid : ∀ b : Aircraft, b.id = i →
      ((fun c : Aircraft => { c with assignedRunway := Runway.RWY_B }) b).id = b.id := fun b _ => rfl
  unfold tryAssignB
  split
  case isFalse hC => exact ⟨h, fun _ => rfl⟩
  case isTrue hC =>
    refine ⟨?_, by simp⟩
    obtain ⟨hav, hfree⟩ := hC
    have hoccB : s.occB = none := by
      have h2 := h.availB
      rw [hav] at h2
      exact Option.isNone_iff_eq_none.mp h2.symm
    constructor
    · show ((updatePlane s.planes i _).map (fun a => a.id)).Nodup
      rw [updatePlane_ids _ _ _ hid]
      exact h.nodup
    · intro b hb
      rcases mem_updatePlane hb with ⟨c, hc, hbc⟩
      have hbid : b.id = c.id := by rw [hbc]; split <;> rfl
      show b.id < s.nextId
      rw [hbid]
      exact h.fresh c hc
    · -- occA unchanged
      refine ⟨?_, ?_⟩
      · intro j hj
        rcases h.occA.1 j hj with ⟨b, hfb, hrb⟩
        have hji : j ≠ i := by
          intro hj2
          rw [hj2, hf] at hfb
          cases hfb
          rw [hn] at hrb
          cases hrb
        refine ⟨b, ?_, hrb⟩
        show findPlane (updatePlane s.planes i _) j = some b
        rw [findPlane_updatePlane_ne _ _ _ _ hid hji]
        exact hfb
      · intro b hb hrb
        rcases mem_updatePlane hb with ⟨c, hc, hbc⟩
        by_cases hci : c.id = i
        · rw [if_pos hci] at hbc
          rw [hbc] at hrb
          cases hrb
        · rw [if_neg hci] at hbc
          subst hbc
          exact h.occA.2 b hc hrb
    · -- occB : the new occupant is i
      refine ⟨?_, ?_⟩
      · intro j hj
        have hji : j = i := by
          have : some i = some j := hj
          exact (Option.some.inj this).symm
        subst hji
        refine ⟨{ a with assignedRunway := Runway.RWY_B }, ?_, rfl⟩
        show findPlane (updatePlane s.planes j _) j = some _
        rw [findPlane_updatePlane_self _ _ _ hid, hf]
        rfl
      · intro b hb hrb
        rcases mem_updatePlane hb with ⟨c, hc, hbc⟩
        by_cases hci : c.id = i
        · have hbid : b.id = i := by rw [hbc, if_pos hci]; exact hci
          show some i = some b.id
          rw [hbid]
        · rw [if_neg hci] at hbc
          subst hbc
          have h2 := h.occB.2 b hc hrb
          rw [hoccB] at h2
          cases h2
    · -- occC unchanged
      refine ⟨?_, ?_⟩
      · intro j hj
        rcases h.occC.1 j hj with ⟨b, hfb, hrb⟩
        have hji : j ≠ i := by
          intro hj2
          rw [hj2, hf] at hfb
          cases hfb
          rw [hn] at hrb
          cases hrb
        refine ⟨b, ?_, hrb⟩
        show findPlane (updatePlane s.planes i _) j = some b
        rw [findPlane_updatePlane_ne _ _ _ _ hid hji]
        exact hfb
      · intro b hb hrb
        rcases mem_updatePlane hb with ⟨c, hc, hbc⟩
        by_cases hci : c.id = i
        · rw [if_pos hci] at hbc
          rw [hbc] at hrb
          cases hrb
        · rw [if_neg hci] at hbc
          subst hbc
          exact h.occC.2 b hc hrb
    · exact h.availA
    · rfl
    · exact h.availC
    · intro b hb
      rcases mem_updatePlane hb with ⟨c, hc, hbc⟩
      by_cases hci : c.id = i
      · rw [if_pos hci] at hbc
        subst hbc
        exact (planeInv_set_runway c Runway.RWY_B).mpr (h.plane c hc)
      · rw [if_neg hci] at hbc
        subst hbc
        exact h.plane b hc
    · exact h.ledger

/- Compose an already-established chain prefix with one more guarded
assignment attempt. -/
theorem chain_step_inv {s : SchedState} (r : SchedState × Bool) (c : Prop) [Decidable c]
    (g : SchedState → SchedState × Bool)
    (hr : SchedInv r.1 ∧ (r.2 = false → r.1 = s))
    (hg : r.1 = s → SchedInv (g s).1 ∧ ((g s).2 = false → (g s).1 = s)) :
    SchedInv (if r.2 = false ∧ c then g r.1 else r).1 ∧
      ((if r.2 = false ∧ c then g r.1 else r).2 = false →
        (if r.2 = false ∧ c then g r.1 else r).1 = s) := by
  split
  case isTrue hc =>
    rw [hr.2 hc.1]
    exact hg (hr.2 hc.1)
  case isFalse => exact hr

theorem prefStepC_inv (s : SchedState) (i : Nat) (a : Aircraft)
    (hf : findPlane s.planes i = some a) (hn : a.assignedRunway = Runway.NONE)
    (h : SchedInv s) :
    SchedInv (prefStepC s i a).1 ∧ ((prefStepC s i a).2 = false → (prefStepC s i a).1 = s) := by
  unfold prefStepC
  split
  · exact tryAssignC_inv s i a hf hn h
  · exact ⟨h, fun _ => rfl⟩

theorem chainA_inv (s : SchedState) (i : Nat) (a : Aircraft)
    (hf : findPlane s.planes i = some a) (hn : a.assignedRunway = Runway.NONE)
    (h : SchedInv s) :
    SchedInv (chainA s i a).1 ∧ ((chainA s i a).2 = false → (chainA s i a).1 = s) := by
  unfold chainA nativeStepA fallbackStepC
  refine chain_step_inv _ (a.type ≠ FlightType.CARGO) (fun st => tryAssignC st i)
    (chain_step_inv _ (a.direction = Direction.NORTH ∨ a.direction = Direction.SOUTH)
      (fun st => tryAssignA st i) (prefStepC_inv s i a hf hn h) ?_) ?_
  · intro _
    exact tryAssignA_inv s i a hf hn h
  · intro _
    exact tryAssignC_inv s i a hf hn h

theorem chainB_inv (s : SchedState) (i : Nat) (a : Aircraft)
    (hf : findPlane s.planes i = some a) (hn : a.assignedRunway = Runway.NONE)
    (h : SchedInv s) :
    SchedInv (chainB s i a).1 ∧ ((chainB s i a).2 = false → (chainB s i a).1 = s) := by
  unfold chainB nativeStepB fallbackStepC
  refine chain_step_inv _ (a.type ≠ FlightType.CARGO) (fun st => tryAssignC st i)
    (chain_step_inv _ (a.direction = Direction.EAST ∨ a.direction = Direction.WEST)
      (fun st => tryAssignB st i) (prefStepC_inv s i a hf hn h) ?_) ?_
  · intro _
    exact tryAssignB_inv s i a hf hn h
  · intro _
    exact tryAssignC_inv s i a hf hn h

theorem handleAQueueOne_inv (s : SchedState) (i : Nat) (h : SchedInv s) :
    SchedInv (handleAQueueOne s i) := by
  unfold handleAQueueOne
  rcases hfp : findPlane s.planes i with _ | a
  · exact h
  · simp only
    split
    · exact inv_of_eq h rfl rfl rfl rfl rfl rfl rfl rfl rfl rfl rfl
    · rename_i hnn
      have hn : a.assignedRunway = Runway.NONE := by
        by_cases hx : a.assignedRunway = Runway.NONE
        · exact hx
        · exact absurd hx (by simpa using hnn)
      have hc := chainA_inv s i a hfp hn h
      split
      · exact hc.1
      · exact inv_of_eq hc.1 rfl rfl rfl rfl rfl rfl rfl rfl rfl rfl rfl

theorem handleBQueueOne_inv (s : SchedState) (i : Nat) (h : SchedInv s) :
    SchedInv (handleBQueueOne s i) := by
  unfold handleBQueueOne
  rcases hfp : findPlane s.planes i with _ | a
  · exact h
  · simp only
    split
    · exact inv_of_eq h rfl rfl rfl rfl rfl rfl rfl rfl rfl rfl rfl
    · rename_i hnn
      have hn : a.assignedRunway = Runway.NONE := by
        by_cases hx : a.assignedRunway = Runway.NONE
        · exact hx
        · exact absurd hx (by simpa using hnn)
      have hc := chainB_inv s i a hfp hn h
      split
      · exact hc.1
      · exact inv_of_eq hc.1 rfl rfl rfl rfl rfl rfl rfl rfl rfl rfl rfl

theorem handleCQueueOne_inv (s : SchedState) (i : Nat) (h : SchedInv s) :
    SchedInv (handleCQueueOne s i) := by
  unfold handleCQueueOne
  rcases hfp : findPlane s.planes i with _ | a
  · exact h
  · simp only
    split
    · exact inv_of_eq h rfl rfl rfl rfl rfl rfl rfl rfl rfl rfl rfl
    · rename_i hnn
      have hn : a.assignedRunway = Runway.NONE := by
        by_cases hx : a.assignedRunway = Runway.NONE
        · exact hx
        · exact absurd hx (by simpa using hnn)
      have hc := tryAssignC_inv s i a hfp hn h
      split
      · exact hc.1
      · exact inv_of_eq hc.1 rfl rfl rfl rfl rfl rfl rfl rfl rfl rfl rfl

theorem processQueueA_inv (s : SchedState) (h : SchedInv s) : SchedInv (processQueueA s) := by
  unfold processQueueA
  exact foldl_preserve (fun st x hst => handleAQueueOne_inv st x hst) _ _
    (inv_of_eq h rfl rfl rfl rfl rfl rfl rfl rfl rfl rfl rfl)

theorem processQueueB_inv (s : SchedState) (h : SchedInv s) : SchedInv (processQueueB s) := by
  unfold processQueueB
  exact foldl_preserve (fun st x hst => handleBQueueOne_inv st x hst) _ _
    (inv_of_eq h rfl rfl rfl rfl rfl rfl rfl rfl rfl rfl rfl)

theorem processQueueC_inv (s : SchedState) (h : SchedInv s) : SchedInv (processQueueC s) := by
  unfold processQueueC
  exact foldl_preserve (fun st x hst => handleCQueueOne_inv st x hst) _ _
    (inv_of_eq h rfl rfl rfl rfl rfl rfl rfl rfl rfl rfl rfl)

theorem releaseOne_inv (s : SchedState) (i : Nat) (h : SchedInv s) : SchedInv (releaseOne s i) := by
  unfold releaseOne
  rcases hfp : findPlane s.planes i with _ | a
  · exact h
  · simp only
    split
    case isFalse => exact h
    case isTrue hrel =>
      obtain ⟨hne, hr⟩ := hrel
      have haid : a.id = i := findPlane_id hfp
      have hamem : a ∈ s.planes := findPlane_mem hfp
      have hid : ∀ b : Aircraft, b.id = i →
          ((fun c : Aircraft => { c with assignedRunway := Runway.NONE }) b).id = b.id :=
        fun b _ => rfl
      split <;> rename_i hra
      · -- release of one runway
          have hoccA : s.occA = some i := by
            have h2 := h.occA.2 a hamem hra
            rw [haid] at h2
            exact h2
          constructor
          · show ((updatePlane s.planes i _).map (fun a => a.id)).Nodup
            rw [updatePlane_ids _ _ _ hid]
            exact h.nodup
          · intro b hb
            rcases mem_updatePlane hb with ⟨c, hc, hbc⟩
            have hbid : b.id = c.id := by rw [hbc]; split <;> rfl
            show b.id < s.nextId
            rw [hbid]
            exact h.fresh c hc
          · -- occA is cleared
            refine ⟨?_, ?_⟩
            · intro j hj
              exact Option.noConfusion hj
            · intro b hb hrb
              rcases mem_updatePlane hb with ⟨c, hc, hbc⟩
              by_cases hci : c.id = i
              · rw [if_pos hci] at hbc
                rw [hbc] at hrb
                cases hrb
              · rw [if_neg hci] at hbc
                subst hbc
                have h2 := h.occA.2 b hc hrb
                rw [hoccA] at h2
                exact absurd (Option.some.inj h2).symm hci
          · -- occB is unchanged
            refine ⟨?_, ?_⟩
            · intro j hj
              rcases h.occB.1 j hj with ⟨b, hfb, hrb⟩
              have hji : j ≠ i := by
                intro hj2
                rw [hj2, hfp] at hfb
                cases hfb
                rw [hra] at hrb
                cases hrb
              refine ⟨b, ?_, hrb⟩
              show findPlane (updatePlane s.planes i _) j = some b
              rw [findPlane_updatePlane_ne _ _ _ _ hid hji]
              exact hfb
            · intro b hb hrb
              rcases mem_updatePlane hb with ⟨c, hc, hbc⟩
              by_cases hci : c.id = i
              · rw [if_pos hci] at hbc
                rw [hbc] at hrb
                cases hrb
              · rw [if_neg hci] at hbc
                subst hbc
                exact h.occB.2 b hc hrb
          · -- occC is unchanged
            refine ⟨?_, ?_⟩
            · intro j hj
              rcases h.occC.1 j hj with ⟨b, hfb, hrb⟩
              have hji : j ≠ i := by
                intro hj2
                rw [hj2, hfp] at hfb
                cases hfb
                rw [hra] at hrb
                cases hrb
              refine ⟨b, ?_, hrb⟩
              show findPlane (updatePlane s.planes i _) j = some b
              rw [findPlane_updatePlane_ne _ _ _ _ hid hji]
              exact hfb
            · intro b hb hrb
              rcases mem_updatePlane hb with ⟨c, hc, hbc⟩
              by_cases hci : c.id = i
              · rw [if_pos hci] at hbc
                rw [hbc] at hrb
                cases hrb
              · rw [if_neg hci] at hbc
                subst hbc
                exact h.occC.2 b hc hrb
          · rfl
          · exact h.availB
          · exact h.availC
          · intro b hb
            rcases mem_updatePlane hb with ⟨c, hc, hbc⟩
            by_cases hci : c.id = i
            · rw [if_pos hci] at hbc
              subst hbc
              exact (planeInv_set_runway c Runway.NONE).mpr (h.plane c hc)
            · rw [if_neg hci] at hbc
              subst hbc
              exact h.plane b hc
          · exact h.ledger
      · -- release of one runway
          have hoccB : s.occB = some i := by
            have h2 := h.occB.2 a hamem hra
            rw [haid] at h2
            exact h2
          constructor
          · show ((updatePlane s.planes i _).map (fun a => a.id)).Nodup
            rw [updatePlane_ids _ _ _ hid]
            exact h.nodup
          · intro b hb
            rcases mem_updatePlane hb with ⟨c, hc, hbc⟩
            have hbid : b.id = c.id := by rw [hbc]; split <;> rfl
            show b.id < s.nextId
            rw [hbid]
            exact h.fresh c hc
          · -- occA is unchanged
            refine ⟨?_, ?_⟩
            · intro j hj
              rcases h.occA.1 j hj with ⟨b, hfb, hrb⟩
              have hji : j ≠ i := by
                intro hj2
                rw [hj2, hfp] at hfb
                cases hfb
                rw [hra] at hrb
                cases hrb
              refine ⟨b, ?_, hrb⟩
              show findPlane (updatePlane s.planes i _) j = some b
              rw [findPlane_updatePlane_ne _ _ _ _ hid hji]
              exact hfb
            · intro b hb hrb
              rcases mem_updatePlane hb with ⟨c, hc, hbc⟩
              by_cases hci : c.id = i
              · rw [if_pos hci] at hbc
                rw [hbc] at hrb
                cases hrb
              · rw [if_neg hci] at hbc
                subst hbc
                exact h.occA.2 b hc hrb
          · -- occB is cleared
            refine ⟨?_, ?_⟩
            · intro j hj
              exact Option.noConfusion hj
            · intro b hb hrb
              rcases mem_updatePlane hb with ⟨c, hc, hbc⟩
              by_cases hci : c.id = i
              · rw [if_pos hci] at hbc
                rw [hbc] at hrb
                cases hrb
              · rw [if_neg hci] at hbc
                subst hbc
                have h2 := h.occB.2 b hc hrb
                rw [hoccB] at h2
                exact absurd (Option.some.inj h2).symm hci
          · -- occC is unchanged
            refine ⟨?_, ?_⟩
            · intro j hj
              rcases h.occC.1 j hj with ⟨b, hfb, hrb⟩
              have hji : j ≠ i := by
                intro hj2
                rw [hj2, hfp] at hfb
                cases hfb
                rw [hra] at hrb
                cases hrb
              refine ⟨b, ?_, hrb⟩
              show findPlane (updatePlane s.planes i _) j = some b
              rw [findPlane_updatePlane_ne _ _ _ _ hid hji]
              exact hfb
            · intro b hb hrb
              rcases mem_updatePlane hb with ⟨c, hc, hbc⟩
              by_cases hci : c.id = i
              · rw [if_pos hci] at hbc
                rw [hbc] at hrb
                cases hrb
              · rw [if_neg hci] at hbc
                subst hbc
                exact h.occC.2 b hc hrb
          · exact h.availA
          · rfl
          · exact h.availC
          · intro b hb
            rcases mem_updatePlane hb with ⟨c, hc, hbc⟩
            by_cases hci : c.id = i
            · rw [if_pos hci] at hbc
              subst hbc
              exact (planeInv_set_runway c Runway.NONE).mpr (h.plane c hc)
            · rw [if_neg hci] at hbc
              subst hbc
              exact h.plane b hc
          · exact h.ledger
      · -- release of one runway
          have hoccC : s.occC = some i := by
            have h2 := h.occC.2 a hamem hra
            rw [haid] at h2
            exact h2
          constructor
          · show ((updatePlane s.planes i _).map (fun a => a.id)).Nodup
            rw [updatePlane_ids _ _ _ hid]
            exact h.nodup
          · intro b hb
            rcases mem_updatePlane hb with ⟨c, hc, hbc⟩
            have hbid : b.id = c.id := by rw [hbc]; split <;> rfl
            show b.id < s.nextId
            rw [hbid]
            exact h.fresh c hc
          · -- occA is unchanged
            refine ⟨?_, ?_⟩
            · intro j hj
              rcases h.occA.1 j hj with ⟨b, hfb, hrb⟩
              have hji : j ≠ i := by
                intro hj2
                rw [hj2, hfp] at hfb
                cases hfb
                rw [hra] at hrb
                cases hrb
              refine ⟨b, ?_, hrb⟩
              show findPlane (updatePlane s.planes i _) j = some b
              rw [findPlane_updatePlane_ne _ _ _ _ hid hji]
              exact hfb
            · intro b hb hrb
              rcases mem_updatePlane hb with ⟨c, hc, hbc⟩
              by_cases hci : c.id = i
              · rw [if_pos hci] at hbc
                rw [hbc] at hrb
                cases hrb
              · rw [if_neg hci] at hbc
                subst hbc
                exact h.occA.2 b hc hrb
          · -- occB is unchanged
            refine ⟨?_, ?_⟩
            · intro j hj
              rcases h.occB.1 j hj with ⟨b, hfb, hrb⟩
              have hji : j ≠ i := by
                intro hj2
                rw [hj2, hfp] at hfb
                cases hfb
                rw [hra] at hrb
                cases hrb
              refine ⟨b, ?_, hrb⟩
              show findPlane (updatePlane s.planes i _) j = some b
              rw [findPlane_updatePlane_ne _ _ _ _ hid hji]
              exact hfb
            · intro b hb hrb
              rcases mem_updatePlane hb with ⟨c, hc, hbc⟩
              by_cases hci : c.id = i
              · rw [if_pos hci] at hbc
                rw [hbc] at hrb
                cases hrb
              · rw [if_neg hci] at hbc
                subst hbc
                exact h.occB.2 b hc hrb
          · -- occC is cleared
            refine ⟨?_, ?_⟩
            · intro j hj
              exact Option.noConfusion hj
            · intro b hb hrb
              rcases mem_updatePlane hb with ⟨c, hc, hbc⟩
              by_cases hci : c.id = i
              · rw [if_pos hci] at hbc
                rw [hbc] at hrb
                cases hrb
              · rw [if_neg hci] at hbc
                subst hbc
                have h2 := h.occC.2 b hc hrb
                rw [hoccC] at h2
                exact absurd (Option.some.inj h2).symm hci
          · exact h.availA
          · exact h.availB
          · rfl
          · intro b hb
            rcases mem_updatePlane hb with ⟨c, hc, hbc⟩
            by_cases hci : c.id = i
            · rw [if_pos hci] at hbc
              subst hbc
              exact (planeInv_set_runway c Runway.NONE).mpr (h.plane c hc)
            · rw [if_neg hci] at hbc
              subst hbc
              exact h.plane b hc
          · exact h.ledger
      · exact absurd hra hne

theorem releaseScan_inv (s : SchedState) (h : SchedInv s) : SchedInv (releaseScan s) := by
  unfold releaseScan
  exact foldl_preserve (fun st x hst => releaseOne_inv st x hst) _ _ h

theorem assignRunways_inv (s : SchedState) (h : SchedInv s) : SchedInv (assignRunways s) := by
  unfold assignRunways
  exact releaseScan_inv _ (processQueueC_inv _ (processQueueB_inv _ (processQueueA_inv _ h)))

-- ------------------ the flight-update phase ------------------
set_option maxHeartbeats 1000000



theorem arrInject_skip (b : Aircraft) (d : TickDraws) (hbe : b.isEmergency = true)
    (hbm : b.maintainViolationSpeed = false) : arrInject b d = b := by
  unfold arrInject
  rw [if_neg (by simp [hbe]), if_neg (by simp [hbm])]

theorem depInject_skip (b : Aircraft) (d : TickDraws) (hbe : b.isEmergency = true)
    (hbm : b.maintainViolationSpeed = false) : depInject b d = b := by
  unfold depInject
  rw [if_neg (by simp [hbe]), if_neg (by simp [hbm])]

theorem runCheck_no_violation (band : Aircraft → Option (Int × Int)) (b : Aircraft)
    (ctr now : Nat) (hb : band b = none) : runCheck band b ctr now = (b, none, ctr) := by
  unfold runCheck
  split
  · rfl
  · rw [hb]

theorem arrStep_emergency (a : Aircraft) (d : TickDraws) (hd : d.Valid)
    (hm : a.maintainViolationSpeed = false) (hs : speedOK a) :
    speedOK (arrPhaseStep a d) ∧ arrBandOf (arrPhaseStep a d) = none ∧
    (arrPhaseStep a d).maintainViolationSpeed = false := by
  obtain ⟨h1, h2, h3, h4, h5, h6, hap1, hap2, htx1, htx2, hcl1, hcl2, hcr1, hcr2, hco1, hco2⟩ := hd
  simp only [APPROACH_MIN_SPEED, APPROACH_MAX_SPEED, TAXI_MIN_SPEED, TAXI_MAX_SPEED,
    CLIMB_MIN_SPEED, CLIMB_MAX_SPEED, CRUISE_MIN_SPEED, CRUISE_MAX_SPEED,
    MAX_VIOLATION_SPEED_EXCESS] at hap1 hap2 htx1 htx2 hcl1 hcl2 hcr1 hcr2 h5 h6
  obtain ⟨aid, afn, aal, aty, adir, apri, asp, ahav, acv, asch, arw, aie, avs, amv, avsp, aph, ast⟩ := a
  dsimp only at hm hs ⊢
  subst hm
  rcases aph with st | st
  · cases st
    case HOLDING =>
      simp only [speedOK, HOLDING_MAX_SPEED] at hs
      unfold arrPhaseStep
      dsimp only
      split
      · simp only [speedOK, arrBandOf, APPROACH_MIN_SPEED, APPROACH_MAX_SPEED]
        refine ⟨⟨hap1, hap2⟩, ?_, trivial⟩
        rw [if_neg (by omega)]
      · simp only [speedOK, arrBandOf, HOLDING_MIN_SPEED, HOLDING_MAX_SPEED]
        refine ⟨hs, ?_, trivial⟩
        rw [if_neg (by omega)]
    case APPROACH =>
      simp only [speedOK, APPROACH_MIN_SPEED, APPROACH_MAX_SPEED] at hs
      unfold arrPhaseStep
      dsimp only
      split
      · simp only [speedOK, arrBandOf, LANDING_START_SPEED, LANDING_END_SPEED, LANDING_TIME]
        refine ⟨by omega, ?_, trivial⟩
        rw [if_neg (by omega)]
      · simp only [speedOK, arrBandOf, APPROACH_MIN_SPEED, APPROACH_MAX_SPEED]
        refine ⟨hs, ?_, trivial⟩
        rw [if_neg (by omega)]
    case LANDING =>
      simp only [speedOK, LANDING_START_SPEED] at hs
      unfold arrPhaseStep
      dsimp only
      split
      · simp only [speedOK, arrBandOf, TAXI_MIN_SPEED, TAXI_MAX_SPEED]
        refine ⟨htx2, ?_, trivial⟩
        rw [if_neg (by omega)]
      · rename_i hlt
        rw [if_neg (by simp)]
        simp only [speedOK, arrBandOf, LANDING_START_SPEED, LANDING_END_SPEED, LANDING_TIME] at hlt ⊢
        refine ⟨by omega, ?_, trivial⟩
        rw [if_neg (by omega)]
    case TAXI =>
      simp only [speedOK, TAXI_MAX_SPEED] at hs
      unfold arrPhaseStep
      dsimp only
      split
      · simp only [speedOK, arrBandOf, GATE_MAX_SPEED]
        refine ⟨by omega, ?_, trivial⟩
        rw [if_neg (by omega)]
      · simp only [speedOK, arrBandOf, TAXI_MIN_SPEED, TAXI_MAX_SPEED]
        refine ⟨hs, ?_, trivial⟩
        rw [if_neg (by omega)]
    case AT_GATE =>
      unfold arrPhaseStep
      dsimp only
      simp only [speedOK, arrBandOf, GATE_MAX_SPEED]
      refine ⟨by omega, ?_, trivial⟩
      rw [if_neg (by omega)]
  · unfold arrPhaseStep
    dsimp only
    exact ⟨hs, rfl, rfl⟩

theorem depStep_emergency (a : Aircraft) (d : TickDraws) (hd : d.Valid)
    (hm : a.maintainViolationSpeed = false) (hs : speedOK a) :
    speedOK (depPhaseStep a d) ∧ depBandOf (depPhaseStep a d) = none ∧
    (depPhaseStep a d).maintainViolationSpeed = false := by
  obtain ⟨h1, h2, h3, h4, h5, h6, hap1, hap2, htx1, htx2, hcl1, hcl2, hcr1, hcr2, hco1, hco2⟩ := hd
  simp only [APPROACH_MIN_SPEED, APPROACH_MAX_SPEED, TAXI_MIN_SPEED, TAXI_MAX_SPEED,
    CLIMB_MIN_SPEED, CLIMB_MAX_SPEED, CRUISE_MIN_SPEED, CRUISE_MAX_SPEED,
    MAX_VIOLATION_SPEED_EXCESS] at hap1 hap2 htx1 htx2 hcl1 hcl2 hcr1 hcr2 h5 h6
  obtain ⟨aid, afn, aal, aty, adir, apri, asp, ahav, acv, asch, arw, aie, avs, amv, avsp, aph, ast⟩ := a
  dsimp only at hm hs ⊢
  subst hm
  rcases aph with st | st
  · unfold depPhaseStep
    dsimp only
    exact ⟨hs, rfl, rfl⟩
  · cases st
    case AT_GATE =>
      simp only [speedOK, GATE_MAX_SPEED] at hs
      unfold depPhaseStep
      dsimp only
      split
      · simp only [speedOK, depBandOf, TAXI_MIN_SPEED, TAXI_MAX_SPEED]
        refine ⟨htx2, ?_, trivial⟩
        rw [if_neg (by omega)]
      · simp only [speedOK, depBandOf, GATE_MAX_SPEED]
        refine ⟨by omega, ?_, trivial⟩
        rw [if_neg (by omega)]
    case TAXI =>
      simp only [speedOK, TAXI_MAX_SPEED] at hs
      unfold depPhaseStep
      dsimp only
      split
      · simp only [speedOK, depBandOf, TAKEOFF_MAX_SPEED]
        refine ⟨by omega, ?_, trivial⟩
        rw [if_neg (by omega)]
      · simp only [speedOK, depBandOf, TAXI_MIN_SPEED, TAXI_MAX_SPEED]
        refine ⟨hs, ?_, trivial⟩
        rw [if_neg (by omega)]
    case TAKEOFF_ROLL =>
      simp only [speedOK, TAKEOFF_MAX_SPEED] at hs
      unfold depPhaseStep
      dsimp only
      split
      · simp only [speedOK, depBandOf, CLIMB_MIN_SPEED, CLIMB_MAX_SPEED]
        refine ⟨hcl2, ?_, trivial⟩
        rw [if_neg (by omega)]
      · rw [if_neg (by simp)]
        simp only [speedOK, depBandOf, TAKEOFF_MAX_SPEED, TAKEOFF_TIME]
        refine ⟨by omega, ?_, trivial⟩
        rw [if_neg (by omega)]
    case CLIMB =>
      simp only [speedOK, CLIMB_MAX_SPEED] at hs
      unfold depPhaseStep
      dsimp only
      split
      · simp only [speedOK, depBandOf, CRUISE_MIN_SPEED, CRUISE_MAX_SPEED]
        refine ⟨⟨hcr1, hcr2⟩, ?_, trivial⟩
        rw [if_neg (by omega)]
      · simp only [speedOK, depBandOf, CLIMB_MIN_SPEED, CLIMB_MAX_SPEED]
        refine ⟨hs, ?_, trivial⟩
        rw [if_neg (by omega)]
    case CRUISE =>
      simp only [speedOK, CRUISE_MIN_SPEED, CRUISE_MAX_SPEED] at hs
      unfold depPhaseStep
      dsimp only
      simp only [speedOK, depBandOf, CRUISE_MIN_SPEED, CRUISE_MAX_SPEED]
      refine ⟨hs, ?_, trivial⟩
      rw [if_neg (by omega)]

theorem coreSig_fields {a b : Aircraft} (h : coreSig a = coreSig b) :
    a.id = b.id ∧ a.assignedRunway = b.assignedRunway ∧ a.type = b.type ∧
    a.direction = b.direction ∧ a.priority = b.priority ∧ a.isEmergency = b.isEmergency ∧
    a.airline = b.airline ∧ a.flightNumber = b.flightNumber ∧ a.scheduledTime = b.scheduledTime := by
  unfold coreSig at h
  simp only [Prod.mk.injEq] at h
  tauto

theorem violSig_fields {a b : Aircraft} (h : violSig a = violSig b) :
    a.violatedStates = b.violatedStates ∧ a.hasActiveViolation = b.hasActiveViolation ∧
    a.currentViolation = b.currentViolation := by
  unfold violSig at h
  simp only [Prod.mk.injEq] at h
  tauto

theorem updateStatus_emergency (a : Aircraft) (d : TickDraws) (now ac dc : Nat)
    (hd : d.Valid) (he : a.isEmergency = true) (hv : a.violatedStates = [])
    (hm : a.maintainViolationSpeed = false) (hha : a.hasActiveViolation = false)
    (hs : speedOK a) :
    (updateStatus a d now ac dc).2.1 = none ∧
    (updateStatus a d now ac dc).2.2.1 = ac ∧ (updateStatus a d now ac dc).2.2.2 = dc ∧
    (updateStatus a d now ac dc).1.violatedStates = [] ∧
    (updateStatus a d now ac dc).1.maintainViolationSpeed = false ∧
    (updateStatus a d now ac dc).1.hasActiveViolation = false ∧
    (updateStatus a d now ac dc).1.currentViolation = a.currentViolation ∧
    speedOK (updateStatus a d now ac dc).1 := by
  unfold updateStatus
  rcases hp : a.phase with st | st
  · obtain ⟨hsOK, hband, hm2⟩ := arrStep_emergency a d hd hm hs
    have hcore := coreSig_fields (arrPhaseStep_coreSig a d)
    have hviol := violSig_fields (arrPhaseStep_violSig a d)
    have hbe : (arrPhaseStep a d).isEmergency = true := by
      rw [← hcore.2.2.2.2.2.1] at he
      exact he
    have hskip : arrInject (arrPhaseStep a d) d = arrPhaseStep a d :=
      arrInject_skip _ d hbe hm2
    have hchk : arrCheckViolation (arrPhaseStep a d) ac now = (arrPhaseStep a d, none, ac) :=
      runCheck_no_violation arrBandOf _ ac now hband
    simp only [hskip, hchk]
    refine ⟨trivial, trivial, trivial, ?_, hm2, ?_, hviol.2.2, hsOK⟩
    · rw [← hviol.1] at hv
      exact hv
    · rw [← hviol.2.1] at hha
      exact hha
  · obtain ⟨hsOK, hband, hm2⟩ := depStep_emergency a d hd hm hs
    have hcore := coreSig_fields (depPhaseStep_coreSig a d)
    have hviol := violSig_fields (depPhaseStep_violSig a d)
    have hbe : (depPhaseStep a d).isEmergency = true := by
      rw [← hcore.2.2.2.2.2.1] at he
      exact he
    have hskip : depInject (depPhaseStep a d) d = depPhaseStep a d :=
      depInject_skip _ d hbe hm2
    have hchk : depCheckViolation (depPhaseStep a d) dc now = (depPhaseStep a d, none, dc) :=
      runCheck_no_violation depBandOf _ dc now hband
    simp only [hskip, hchk]
    refine ⟨trivial, trivial, trivial, ?_, hm2, ?_, hviol.2.2, hsOK⟩
    · rw [← hviol.1] at hv
      exact hv
    · rw [← hviol.2.1] at hha
      exact hha

theorem mkAVN_id_eq (id : Nat) (airline flightNumber : String) (t : FlightType)
    (sp mn mx : Int) (now : Nat) : (mkAVN id airline flightNumber t sp mn mx now).id = id := rfl

theorem updateStatus_emit (a : Aircraft) (d : TickDraws) (now ac dc : Nat)
    (hha : a.hasActiveViolation = false) (hcv : a.currentViolation = none) :
    ((updateStatus a d now ac dc).2.1 = none ∧
      (updateStatus a d now ac dc).1.hasActiveViolation = false ∧
      (updateStatus a d now ac dc).1.currentViolation = none ∧
      (updateStatus a d now ac dc).2.2.1 = ac ∧ (updateStatus a d now ac dc).2.2.2 = dc) ∨
    (∃ v, (updateStatus a d now ac dc).2.1 = some v ∧
      (updateStatus a d now ac dc).1.hasActiveViolation = true ∧
      (updateStatus a d now ac dc).1.currentViolation = some v ∧
      ((v.id = ac ∧ (updateStatus a d now ac dc).2.2.1 = ac + 1 ∧
          (updateStatus a d now ac dc).2.2.2 = dc) ∨
       (v.id = dc ∧ (updateStatus a d now ac dc).2.2.2 = dc + 1 ∧
          (updateStatus a d now ac dc).2.2.1 = ac))) := by
  unfold updateStatus
  rcases hp : a.phase with st | st
  · have hviol := violSig_fields (arrInject_violSig (arrPhaseStep a d) d)
    have hviol2 := violSig_fields (arrPhaseStep_violSig a d)
    have hbha : (arrInject (arrPhaseStep a d) d).hasActiveViolation = false := by
      rw [hviol.2.1, hviol2.2.1]
      exact hha
    have hbcv : (arrInject (arrPhaseStep a d) d).currentViolation = none := by
      rw [hviol.2.2, hviol2.2.2]
      exact hcv
    rcases runCheck_cases arrBandOf (arrInject (arrPhaseStep a d) d) ac now with hcase | ⟨mn, mx, hb, hnm, hcase⟩
    · left
      dsimp only
      unfold arrCheckViolation
      rw [hcase]
      exact ⟨rfl, hbha, hbcv, rfl, rfl⟩
    · right
      dsimp only
      unfold arrCheckViolation
      rw [hcase]
      refine ⟨_, rfl, rfl, rfl, Or.inl ⟨rfl, rfl, rfl⟩⟩
  · have hviol := violSig_fields (depInject_violSig (depPhaseStep a d) d)
    have hviol2 := violSig_fields (depPhaseStep_violSig a d)
    have hbha : (depInject (depPhaseStep a d) d).hasActiveViolation = false := by
      rw [hviol.2.1, hviol2.2.1]
      exact hha
    have hbcv : (depInject (depPhaseStep a d) d).currentViolation = none := by
      rw [hviol.2.2, hviol2.2.2]
      exact hcv
    rcases runCheck_cases depBandOf (depInject (depPhaseStep a d) d) dc now with hcase | ⟨mn, mx, hb, hnm, hcase⟩
    · left
      dsimp only
      unfold depCheckViolation
      rw [hcase]
      exact ⟨rfl, hbha, hbcv, rfl, rfl⟩
    · right
      dsimp only
      unfold depCheckViolation
      rw [hcase]
      refine ⟨_, rfl, rfl, rfl, Or.inr ⟨rfl, rfl, rfl⟩⟩


theorem updatePlane_const_twice (ps : List Aircraft) (i : Nat) (a1 a2 : Aircraft)
    (h1 : a1.id = i) :
    updatePlane (updatePlane ps i (fun _ => a1)) i (fun _ => a2) =
      updatePlane ps i (fun _ => a2) := by
  induction ps with
  | nil => rfl
  | cons c ps ih =>
    rw [updatePlane_cons, updatePlane_cons, updatePlane_cons, ih]
    by_cases hc : c.id = i
    · simp [hc, h1]
    · simp [hc]

theorem occOk_setPlane {ps : List Aircraft} {i : Nat} {a a1 : Aircraft}
    (hf : findPlane ps i = some a) (hid1 : a1.id = a.id)
    (hrw : a1.assignedRunway = a.assignedRunway)
    {X : Runway} {o : Option Nat} (h : occOk ps X o) :
    occOk (updatePlane ps i (fun _ => a1)) X o := by
  have haid : a.id = i := findPlane_id hf
  have hid : ∀ b : Aircraft, b.id = i → ((fun _ : Aircraft => a1) b).id = b.id := by
    intro b hb
    show a1.id = b.id
    rw [hid1, haid, hb]
  refine ⟨?_, ?_⟩
  · intro j hj
    rcases h.1 j hj with ⟨b, hfb, hrb⟩
    by_cases hji : j = i
    · subst hji
      rw [hf] at hfb
      cases hfb
      refine ⟨a1, ?_, by rw [hrw]; exact hrb⟩
      rw [findPlane_updatePlane_self _ _ _ hid, hf]
      rfl
    · refine ⟨b, ?_, hrb⟩
      rw [findPlane_updatePlane_ne _ _ _ _ hid hji]
      exact hfb
  · intro b hb hrb
    rcases mem_updatePlane hb with ⟨c, hc, hbc⟩
    by_cases hci : c.id = i
    · rw [if_pos hci] at hbc
      subst hbc
      rw [hrw] at hrb
      have h2 := h.2 a (findPlane_mem hf) hrb
      rw [hid1]
      exact h2
    · rw [if_neg hci] at hbc
      subst hbc
      exact h.2 b hc hrb

theorem ledgerOk_append_arr (l : List AVN) (ac dc : Nat) (v : AVN)
    (h : LedgerOk l ac dc) (hv : v.id = ac) : LedgerOk (l ++ [v]) (ac + 1) dc := by
  obtain ⟨hac, hdc, hcount⟩ := h
  refine ⟨by omega, hdc, ?_⟩
  intro k
  have hone : List.countP (fun x => x.id == k) [v] = if v.id = k then 1 else 0 := by
    by_cases hvk : v.id = k <;> simp [List.countP_cons, hvk]
  rw [List.countP_append, hcount k, hone]
  split_ifs <;> omega

theorem ledgerOk_append_dep (l : List AVN) (ac dc : Nat) (v : AVN)
    (h : LedgerOk l ac dc) (hv : v.id = dc) : LedgerOk (l ++ [v]) ac (dc + 1) := by
  obtain ⟨hac, hdc, hcount⟩ := h
  refine ⟨hac, by omega, ?_⟩
  intro k
  have hone : List.countP (fun x => x.id == k) [v] = if v.id = k then 1 else 0 := by
    by_cases hvk : v.id = k <;> simp [List.countP_cons, hvk]
  rw [List.countP_append, hcount k, hone]
  split_ifs <;> omega

theorem schedInv_replace (s : SchedState) (i : Nat) (a a1 : Aircraft)
    (hf : findPlane s.planes i = some a) (hid1 : a1.id = a.id)
    (hrw : a1.assignedRunway = a.assignedRunway) (hpi : PlaneInv a1)
    (h : SchedInv s) (l2 : List AVN) (ac2 dc2 : Nat) (hl : LedgerOk l2 ac2 dc2) :
    SchedInv { s with planes := updatePlane s.planes i (fun _ => a1),
                      allAVNs := l2, arrCtr := ac2, depCtr := dc2 } := by
  have haid : a.id = i := findPlane_id hf
  have hid : ∀ b : Aircraft, b.id = i → ((fun _ : Aircraft => a1) b).id = b.id := by
    intro b hb
    show a1.id = b.id
    rw [hid1, haid, hb]
  constructor
  · show ((updatePlane s.planes i _).map (fun a => a.id)).Nodup
    rw [updatePlane_ids _ _ _ hid]
    exact h.nodup
  · intro b hb
    rcases mem_updatePlane hb with ⟨c, hc, hbc⟩
    have hbid : b.id = c.id := by
      rw [hbc]
      split
      · rename_i hci
        show a1.id = c.id
        rw [hid1, haid, hci]
      · rfl
    show b.id < s.nextId
    rw [hbid]
    exact h.fresh c hc
  · exact occOk_setPlane hf hid1 hrw h.occA
  · exact occOk_setPlane hf hid1 hrw h.occB
  · exact occOk_setPlane hf hid1 hrw h.occC
  · exact h.availA
  · exact h.availB
  · exact h.availC
  · intro b hb
    rcases mem_updatePlane hb with ⟨c, hc, hbc⟩
    by_cases hci : c.id = i
    · rw [if_pos hci] at hbc
      subst hbc
      exact hpi
    · rw [if_neg hci] at hbc
      subst hbc
      exact h.plane b hc
  · exact hl

theorem updateOneFlight_inv (e : Env) (s : SchedState) (idx i : Nat)
    (hd : (e.draws idx).Valid) (h : SchedInv s) : SchedInv (updateOneFlight e s idx i) := by
  unfold updateOneFlight
  rcases hfp : findPlane s.planes i with _ | a
  · exact h
  · dsimp only
    have hmem := findPlane_mem hfp
    have haid := findPlane_id hfp
    obtain ⟨hpri, hemty, hair, hha, hcv, hem⟩ := h.plane a hmem
    have hcore := coreSig_fields (updateStatus_coreSig a (e.draws idx) e.now s.arrCtr s.depCtr)
    by_cases hie : a.isEmergency = true
    · obtain ⟨hnone, hac, hdc, hv2, hm2, hha2, hcv2, hs2⟩ :=
        updateStatus_emergency a (e.draws idx) e.now s.arrCtr s.depCtr hd hie
          (hem hie).1 (hem hie).2.1 hha (hem hie).2.2
      rw [if_neg (by simp [hha2])]
      rw [hac, hdc]
      have hpi1 : PlaneInv (updateStatus a (e.draws idx) e.now s.arrCtr s.depCtr).1 := by
        refine ⟨?_, ?_, ?_, hha2, ?_, ?_⟩
        · rw [hcore.2.2.2.2.1, hcore.2.2.2.2.2.1, hcore.2.2.1]
          exact hpri
        · rw [hcore.2.2.2.2.2.1, hcore.2.2.1]
          exact hemty
        · rw [hcore.2.2.2.2.2.2.1]
          exact hair
        · rw [hcv2]
          exact hcv
        · intro _
          exact ⟨hv2, hm2, hs2⟩
      exact schedInv_replace s i a _ hfp hcore.1 hcore.2.1 hpi1 h s.allAVNs s.arrCtr s.depCtr h.ledger
    · have hie' : a.isEmergency = false := by
        cases hx : a.isEmergency
        · rfl
        · exact absurd hx hie
      have hnoem : (updateStatus a (e.draws idx) e.now s.arrCtr s.depCtr).1.isEmergency = false := by
        rw [hcore.2.2.2.2.2.1]
        exact hie'
      have hpicommon : ∀ b : Aircraft,
          coreSig b = coreSig (updateStatus a (e.draws idx) e.now s.arrCtr s.depCtr).1 →
          b.hasActiveViolation = false → b.currentViolation = none → PlaneInv b := by
        intro b hbc hb1 hb2
        have hb := coreSig_fields hbc
        refine ⟨?_, ?_, ?_, hb1, hb2, ?_⟩
        · rw [hb.2.2.2.2.1, hb.2.2.2.2.2.1, hb.2.2.1,
              hcore.2.2.2.2.1, hcore.2.2.2.2.2.1, hcore.2.2.1]
          exact hpri
        · rw [hb.2.2.2.2.2.1, hb.2.2.1, hcore.2.2.2.2.2.1, hcore.2.2.1]
          exact hemty
        · rw [hb.2.2.2.2.2.2.1, hcore.2.2.2.2.2.2.1]
          exact hair
        · intro hc
          rw [hb.2.2.2.2.2.1, hnoem] at hc
          cases hc
      rcases updateStatus_emit a (e.draws idx) e.now s.arrCtr s.depCtr hha hcv with
        ⟨hnone, hha2, hcv2, hac, hdc⟩ | ⟨v, hsome, hha2, hcv2, hside⟩
      · rw [if_neg (by simp [hha2])]
        rw [hac, hdc]
        have hpi1 := hpicommon _ rfl hha2 hcv2
        exact schedInv_replace s i a _ hfp hcore.1 hcore.2.1 hpi1 h s.allAVNs s.arrCtr s.depCtr h.ledger
      · rw [if_pos (by simp [hha2])]
        rw [hcv2]
        dsimp only
        rw [if_pos (show (updateStatus a (e.draws idx) e.now s.arrCtr s.depCtr).1.airline ∈
              eligibleAirlineNames by rw [hcore.2.2.2.2.2.2.1]; exact hair)]
        rw [updatePlane_const_twice _ _ _ _ (by rw [hcore.1]; exact haid)]
        have hpi2 : PlaneInv { (updateStatus a (e.draws idx) e.now s.arrCtr s.depCtr).1 with
            hasActiveViolation := false, currentViolation := none } := by
          apply hpicommon
          · unfold coreSig
            rfl
          · rfl
          · rfl
        rcases hside with ⟨hvid, hac, hdc⟩ | ⟨hvid, hdc, hac⟩
        · rw [hac, hdc]
          refine schedInv_replace s i a _ hfp ?_ ?_ hpi2 h _ _ _
            (ledgerOk_append_arr s.allAVNs s.arrCtr s.depCtr v h.ledger hvid)
          · exact hcore.1
          · exact hcore.2.1
        · rw [hac, hdc]
          refine schedInv_replace s i a _ hfp ?_ ?_ hpi2 h _ _ _
            (ledgerOk_append_dep s.allAVNs s.arrCtr s.depCtr v h.ledger hvid)
          · exact hcore.1
          · exact hcore.2.1

theorem updateFlights_inv (e : Env) (s : SchedState) (he : e.Valid) (h : SchedInv s) :
    SchedInv (updateFlights e s) := by
  unfold updateFlights
  exact foldl_preserve (fun st x hst => updateOneFlight_inv e st x.1 x.2 (he.2.2.2.2 x.1) hst) _ _ h

theorem moveCompletedFlights_inv (s : SchedState) (h : SchedInv s) :
    SchedInv (moveCompletedFlights s) := by
  unfold moveCompletedFlights
  exact inv_of_eq h rfl rfl rfl rfl rfl rfl rfl rfl rfl rfl rfl

theorem tick_inv (e : Env) (s : SchedState) (he : e.Valid) (h : SchedInv s) :
    SchedInv (tick e s) := by
  unfold tick
  apply moveCompletedFlights_inv
  apply updateFlights_inv _ _ he
  apply assignRunways_inv
  apply generateFlights_inv _ _ he
  exact inv_of_eq h rfl rfl rfl rfl rfl rfl rfl rfl rfl rfl rfl

theorem schedInv_init : SchedInv initState := by
  constructor
  · simp [initState]
  · intro a ha
    simp [initState] at ha
  · exact ⟨fun j hj => Option.noConfusion hj, fun a ha => by simp [initState] at ha⟩
  · exact ⟨fun j hj => Option.noConfusion hj, fun a ha => by simp [initState] at ha⟩
  · exact ⟨fun j hj => Option.noConfusion hj, fun a ha => by simp [initState] at ha⟩
  · rfl
  · rfl
  · rfl
  · intro a ha
    simp [initState] at ha
  · refine ⟨le_refl 1000, le_refl 1000, ?_⟩
    intro k
    show List.countP _ [] = _
    rw [List.countP_nil]
    simp only [initState]
    split_ifs <;> omega

/- Every reachable scheduler state satisfies the inductive invariant. -/
theorem reachable_inv {s : SchedState} (h : Reachable s) : SchedInv s := by
  induction h with
  | init => exact schedInv_init
  | step e _ hv ih => exact tick_inv e _ hv ih

-- ------------------- concrete executions of the scheduler -------------------

/- Draws under which no violation is injected (the first 15%-roll fails). -/
def d0 : TickDraws :=
  { chance1 := 100, chance2 := 100, excess := 5, approachSpeed := 250, taxiSpeed := 20,
    climbSpeed := 300, cruiseSpeed := 850, cruiseCoin := 100 }

/- Draws under which the violation-injection step fires with excess 40. -/
def dInj : TickDraws :=
  { chance1 := 5, chance2 := 15, excess := 40, approachSpeed := 250, taxiSpeed := 20,
    climbSpeed := 300, cruiseSpeed := 850, cruiseCoin := 100 }

/- Stream draws: no emergency roll, airline PIA (index 4), holding speed 500. -/
def sd0 : StreamDraws := { emergencyDraw := 100, airlineIdx := 4, holdSpeed := 500 }

/- Stream draws picking "Pakistan Airforce" (index 5) with a failed emergency roll. -/
def sdPAF : StreamDraws := { emergencyDraw := 100, airlineIdx := 5, holdSpeed := 500 }

/- Stream draws picking "FedEx" (index 3) with a failed emergency roll. -/
def sdFedEx : StreamDraws := { emergencyDraw := 100, airlineIdx := 3, holdSpeed := 500 }

/- Stream draws with a successful emergency roll (draw 1 ≤ probability). -/
def sdEm : StreamDraws := { emergencyDraw := 1, airlineIdx := 4, holdSpeed := 500 }

theorem d0_valid : d0.Valid := by decide

theorem dInj_valid : dInj.Valid := by decide

theorem sd0_valid : sd0.Valid := by decide

theorem sdPAF_valid : sdPAF.Valid := by decide

theorem sdFedEx_valid : sdFedEx.Valid := by decide

theorem sdEm_valid : sdEm.Valid := by decide

/- Tick 1: the North stream spawns a "Pakistan Airforce" flight whose
emergency roll failed (category EMERGENCY, isEmergency flag false), and the
injection draws fire for it. -/
def envC1 : Env :=
  { north := sdPAF, south := sd0, east := sd0, west := sd0, draws := fun _ => dInj, now := 1 }

def sC1 : SchedState := tick envC1 initState

theorem envC1_valid : envC1.Valid :=
  ⟨by decide, by decide, by decide, by decide, fun _ => dInj_valid⟩

theorem reach_sC1 : Reachable sC1 := Reachable.step envC1 Reachable.init envC1_valid

/- Tick 1 with a successful emergency roll on the North stream: the spawned
aircraft has the isEmergency flag set. -/
def envW : Env :=
  { north := sdEm, south := sd0, east := sd0, west := sd0, draws := fun _ => dInj, now := 1 }

def sW : SchedState := tick envW initState

theorem envW_valid : envW.Valid :=
  ⟨by decide, by decide, by decide, by decide, fun _ => dInj_valid⟩

theorem reach_sW : Reachable sW := Reachable.step envW Reachable.init envW_valid

/- Two ticks in which FedEx cargo flights arrive from North (tick 1, takes
RWY-C) and South (tick 2, finds RWY-C occupied and falls back to RWY-A). -/
def envF1 : Env :=
  { north := sdFedEx, south := sd0, east := sd0, west := sd0, draws := fun _ => d0, now := 1 }

def envF2 : Env :=
  { north := sd0, south := sdFedEx, east := sd0, west := sd0, draws := fun _ => d0, now := 2 }

def sC6 : SchedState := tick envF2 (tick envF1 initState)

theorem envF1_valid : envF1.Valid :=
  ⟨by decide, by decide, by decide, by decide, fun _ => d0_valid⟩

theorem envF2_valid : envF2.Valid :=
  ⟨by decide, by decide, by decide, by decide, fun _ => d0_valid⟩

theorem reach_sC6 : Reachable sC6 :=
  Reachable.step envF2 (Reachable.step envF1 Reachable.init envF1_valid) envF2_valid

/- A quiet environment for tick `k`: PIA flights everywhere, no injections. -/
def envP (k : Nat) : Env :=
  { north := sd0, south := sd0, east := sd0, west := sd0, draws := fun _ => d0, now := k }

theorem envP_valid (k : Nat) : (envP k).Valid :=
  ⟨sd0_valid, sd0_valid, sd0_valid, sd0_valid, fun _ => d0_valid⟩

/- The quiet run: watches the East departure (spawned at tick 3, assigned
RWY-B) go through Taxi and TakeoffRoll into Climb at tick 28. -/
def steps5 : Nat → SchedState
  | 0 => initState
  | n + 1 => tick (envP (n + 1)) (steps5 n)

theorem reach_steps5 (n : Nat) : Reachable (steps5 n) := by
  induction n with
  | zero => exact Reachable.init
  | succ n ih => exact Reachable.step (envP (n + 1)) ih (envP_valid (n + 1))

/- A run producing one arrival-side violation (tick 1, the North flight) and
one departure-side violation (tick 4, the East departure in Taxi). -/
def envT : Nat → Env
  | 1 => envC1
  | 4 => { north := sd0, south := sd0, east := sd0, west := sd0,
           draws := fun i => if i = 2 then dInj else d0, now := 4 }
  | k => envP k

theorem envT_valid (k : Nat) : (envT k).Valid := by
  match k with
  | 1 => exact envC1_valid
  | 4 =>
    refine ⟨by decide, by decide, by decide, by decide, ?_⟩
    intro i
    show TickDraws.Valid (if i = 2 then dInj else d0)
    split
    · exact dInj_valid
    · exact d0_valid
  | 0 => exact envP_valid 0
  | 2 => exact envP_valid 2
  | 3 => exact envP_valid 3
  | (n + 5) => exact envP_valid (n + 5)

def steps10 : Nat → SchedState
  | 0 => initState
  | n + 1 => tick (envT (n + 1)) (steps10 n)

theorem reach_steps10 (n : Nat) : Reachable (steps10 n) := by
  induction n with
  | zero => exact Reachable.init
  | succ n ih => exact Reachable.step (envT (n + 1)) ih (envT_valid (n + 1))

/- A throwaway aircraft used as the default of list lookups and as the base
record for handcrafted probe aircraft. -/
def dummyAircraft : Aircraft :=
  { id := 0, flightNumber := "", airline := "PIA", type := FlightType.COMMERCIAL,
    direction := Direction.NORTH, priority := 1, currentSpeed := 0, hasActiveViolation := false,
    currentViolation := none, scheduledTime := 0, assignedRunway := Runway.NONE,
    isEmergency := false, violatedStates := [], maintainViolationSpeed := false,
    violationSpeed := 0, phase := Phase.arr ArrivalState.HOLDING, stateTime := 0 }

-- ------------------------------ the claims ------------------------------

set_option maxRecDepth 10000

/- No aircraft occupies two runways at once. -/
def occupantsDistinct (s : SchedState) : Prop :=
  (∀ i, s.occA = some i → s.occB ≠ some i ∧ s.occC ≠ some i) ∧
  (∀ i, s.occB = some i → s.occC ≠ some i)

/-- C2: at every reachable state of the scheduler, each of the three runways
has at most one occupant (the occupant slot is a single `Option Nat` that
agrees with the `assignedRunway` field of every aircraft in the heap), and no
aircraft occupies more than one runway. -/
theorem runway_occupancy_exclusive (s : SchedState) (h : Reachable s) :
    occOk s.planes Runway.RWY_A s.occA ∧ occOk s.planes Runway.RWY_B s.occB ∧
    occOk s.planes Runway.RWY_C s.occC ∧ occupantsDistinct s := by
  have hi := reachable_inv h
  refine ⟨hi.occA, hi.occB, hi.occC, ?_, ?_⟩
  · intro i hA
    rcases hi.occA.1 i hA with ⟨b, hfb, hrb⟩
    constructor
    · intro hB
      rcases hi.occB.1 i hB with ⟨c, hfc, hrc⟩
      rw [hfb] at hfc
      cases hfc
      rw [hrb] at hrc
      cases hrc
    · intro hC
      rcases hi.occC.1 i hC with ⟨c, hfc, hrc⟩
      rw [hfb] at hfc
      cases hfc
      rw [hrb] at hrc
      cases hrc
  · intro i hB
    rcases hi.occB.1 i hB with ⟨b, hfb, hrb⟩
    intro hC
    rcases hi.occC.1 i hC with ⟨c, hfc, hrc⟩
    rw [hfb] at hfc
    cases hfc
    rw [hrb] at hrc
    cases hrc

/-- Witness for C2 at the reachable one-tick state sC1, in which runway C is
occupied by aircraft 1000. -/
theorem runway_occupancy_exclusive_witness :
    occOk sC1.planes Runway.RWY_A sC1.occA ∧ occOk sC1.planes Runway.RWY_B sC1.occB ∧
    occOk sC1.planes Runway.RWY_C sC1.occC ∧ occupantsDistinct sC1 :=
  runway_occupancy_exclusive sC1 reach_sC1

/-- C10: the arrival-side and departure-side violation detectors allocate
notice ids from two independent counters that both start at 1000 (the initial
scheduler state carries both at 1000), so any reachable state in which both
counters have moved — i.e. at least one arrival violation and at least one
departure violation were issued — holds two distinct notices with the same id
in its ledger. -/
theorem avn_id_collision (s : SchedState) (h : Reachable s)
    (ha : 1000 < s.arrCtr) (hd : 1000 < s.depCtr) :
    initState.arrCtr = 1000 ∧ initState.depCtr = 1000 ∧
    ∃ i j : Fin s.allAVNs.length, i ≠ j ∧
      (s.allAVNs.get i).id = (s.allAVNs.get j).id := by
  have hi := (reachable_inv h).ledger
  have hcount : s.allAVNs.countP (fun v => v.id == 1000) = 2 := by
    rw [hi.2.2 1000]
    split_ifs <;> omega
  rcases countP_two_get (l := s.allAVNs) (p := fun v => v.id == 1000)
      (by rw [hcount]) with ⟨i, j, hij, hpi, hpj⟩
  refine ⟨rfl, rfl, i, j, hij, ?_⟩
  have h1 : (s.allAVNs.get i).id = 1000 := by simpa using hpi
  have h2 : (s.allAVNs.get j).id = 1000 := by simpa using hpj
  rw [h1, h2]

/-- Witness for C10 at the reachable state steps10 4, which holds one
arrival-issued and one departure-issued notice, both with id 1000. -/
theorem avn_id_collision_witness :
    1000 < (steps10 4).arrCtr ∧ 1000 < (steps10 4).depCtr ∧
    (initState.arrCtr = 1000 ∧ initState.depCtr = 1000 ∧
      ∃ i j : Fin (steps10 4).allAVNs.length, i ≠ j ∧
        ((steps10 4).allAVNs.get i).id = ((steps10 4).allAVNs.get j).id) :=
  ⟨by decide, by decide, avn_id_collision (steps10 4) (reach_steps10 4) (by decide) (by decide)⟩

/-- C1 counterexample: in the reachable one-tick state sC1, aircraft 1000 is a
"Pakistan Airforce" flight whose category is EMERGENCY (the airline forces the
type) but whose emergency roll failed (`isEmergency = false`); the injection
step fired for it and the Violation Detector issued an AVN of aircraft type
EMERGENCY — so an aircraft whose flight category is Emergency did produce a
violation notice. -/
theorem emergency_category_aircraft_gets_avn :
    Reachable sC1 ∧
    (findPlane sC1.planes 1000).map
        (fun a => (a.type, a.isEmergency, a.flightNumber, a.violatedStates)) =
      some (FlightType.EMERGENCY, false, "Pa-1000", ["Holding"]) ∧
    sC1.allAVNs.map (fun v => (v.id, v.aircraftType, v.flightNumber, v.recordedSpeed)) =
      [(1000, FlightType.EMERGENCY, "Pa-1000", 640)] :=
  ⟨reach_sC1, by decide, by decide⟩

/-- C1 (amended): the violation machinery is gated on the `isEmergency` flag,
not on the flight category: at every reachable state, every aircraft whose
`isEmergency` flag is set has never produced a violation notice (its
violated-state set is empty), carries no active violation, and its speed is
inside the permissible band of its phase. Aircraft of category EMERGENCY with
the flag unset (airline-forced category) are not protected. -/
theorem emergency_flag_no_violation (s : SchedState) (h : Reachable s) (a : Aircraft)
    (ha : a ∈ s.planes) (he : a.isEmergency = true) :
    a.violatedStates = [] ∧ a.hasActiveViolation = false ∧
    a.currentViolation = none ∧ speedOK a := by
  have hi := reachable_inv h
  obtain ⟨-, -, -, h4, h5, h6⟩ := hi.plane a ha
  exact ⟨(h6 he).1, h4, h5, (h6 he).2.2⟩

/- The aircraft spawned with the emergency flag set in the run sW. -/
def pW : Aircraft := sW.planes.headD dummyAircraft

/-- Witness for the amended C1 at the reachable state sW, whose single
aircraft has the isEmergency flag set and went through the same injection
draws as the sC1 counterexample without acquiring a violation. -/
theorem emergency_flag_no_violation_witness :
    pW ∈ sW.planes ∧ pW.isEmergency = true ∧
    (pW.violatedStates = [] ∧ pW.hasActiveViolation = false ∧
      pW.currentViolation = none ∧ speedOK pW) :=
  ⟨by decide, by decide, emergency_flag_no_violation sW reach_sW pW (by decide) (by decide)⟩

/-- C8 counterexample: in the reachable state sC1 the "Pakistan Airforce"
aircraft has flight category EMERGENCY but priority 1, because the generator
derives priority from the `isEmergency` roll (which failed) before the airline
forces the category to EMERGENCY. -/
theorem airline_emergency_priority_one :
    Reachable sC1 ∧
    (findPlane sC1.planes 1000).map (fun a => (a.type, a.priority, a.isEmergency)) =
      some (FlightType.EMERGENCY, 1, false) :=
  ⟨reach_sC1, by decide⟩

/-- C8 (amended): priority is derived from the emergency flag and the airline
type, not from the final category: 3 when the `isEmergency` roll succeeded, 2
for Cargo airlines, 1 otherwise — so Cargo gets 2, Commercial gets 1, and
priority 3 is equivalent to the flag (category EMERGENCY forced by an airline
with a failed roll gets priority 1). -/
theorem priority_from_flag_and_type (s : SchedState) (h : Reachable s) (a : Aircraft)
    (ha : a ∈ s.planes) :
    a.priority = (if a.isEmergency = true then 3 else if a.type = FlightType.CARGO then 2 else 1) ∧
    (a.type = FlightType.CARGO → a.priority = 2) ∧
    (a.type = FlightType.COMMERCIAL → a.priority = 1) ∧
    (a.priority = 3 ↔ a.isEmergency = true) := by
  have hi := reachable_inv h
  obtain ⟨h1, h2, -, -, -, -⟩ := hi.plane a ha
  refine ⟨h1, ?_, ?_, ?_⟩
  · intro hc
    rcases hx : a.isEmergency
    · rw [h1, hx, hc]; simp
    · rw [h2 hx] at hc; cases hc
  · intro hc
    rcases hx : a.isEmergency
    · rw [h1, hx, hc]; simp
    · rw [h2 hx] at hc; cases hc
  · constructor
    · intro hp
      rcases hx : a.isEmergency
      · rw [h1, hx] at hp
        simp only [Bool.false_eq_true, if_false] at hp
        split at hp <;> omega
      · rfl
    · intro hx
      rw [h1, hx]
      simp

/- The aircraft of the sC1 run, used to witness the amended C8. -/
def pC1 : Aircraft := sC1.planes.headD dummyAircraft

/-- Witness for the amended C8 at the reachable state sC1. -/
theorem priority_from_flag_and_type_witness :
    pC1 ∈ sC1.planes ∧
    (pC1.priority =
        (if pC1.isEmergency = true then 3 else if pC1.type = FlightType.CARGO then 2 else 1) ∧
      (pC1.type = FlightType.CARGO → pC1.priority = 2) ∧
      (pC1.type = FlightType.COMMERCIAL → pC1.priority = 1) ∧
      (pC1.priority = 3 ↔ pC1.isEmergency = true)) :=
  ⟨by decide, priority_from_flag_and_type sC1 reach_sC1 pC1 (by decide)⟩

/-- C9: every violation notice satisfies at creation time: the fine is the
category-dependent flat fee (500000 for Commercial, 700000 otherwise — in
particular Cargo pays 700000), the service fee is exactly 15% of the fine,
the total is fine + fee = fine × 1.15 exactly (amounts are modelled as exact
rationals, matching the C++ doubles on these values), the due date is the
issue time plus 3 days (259200 seconds), and the initial payment status is
UNPAID. -/
theorem avn_creation_invariants (id : Nat) (airline flightNumber : String)
    (t : FlightType) (speed mn mx : Int) (now : Nat) :
    (mkAVN id airline flightNumber t speed mn mx now).fineAmount =
      (if t = FlightType.COMMERCIAL then (500000 : Rat) else (700000 : Rat)) ∧
    (mkAVN id airline flightNumber t speed mn mx now).serviceFee =
      (mkAVN id airline flightNumber t speed mn mx now).fineAmount * (15 / 100 : Rat) ∧
    (mkAVN id airline flightNumber t speed mn mx now).totalAmount =
      (mkAVN id airline flightNumber t speed mn mx now).fineAmount +
        (mkAVN id airline flightNumber t speed mn mx now).serviceFee ∧
    (mkAVN id airline flightNumber t speed mn mx now).totalAmount =
      (mkAVN id airline flightNumber t speed mn mx now).fineAmount * (115 / 100 : Rat) ∧
    (mkAVN id airline flightNumber t speed mn mx now).issueTime = now ∧
    (mkAVN id airline flightNumber t speed mn mx now).dueDate = now + 259200 ∧
    (mkAVN id airline flightNumber t speed mn mx now).status = PaymentStatus.UNPAID := by
  cases t <;>
    simp [mkAVN, COMMERCIAL_FINE, CARGO_FINE, SERVICE_FEE_PERCENTAGE] <;>
    norm_num

/- Modelled from the spec: the Landing-phase expected speed is a "linear ramp
from 240 down to 30 over the phase's dwell time" (10 ticks), so the expected
ceiling at tick-in-phase `t` is the ramp value, floored at the end speed. -/
def specLandingCeiling (t : Nat) : Int :=
  max LANDING_END_SPEED
    (LANDING_START_SPEED -
      (LANDING_START_SPEED - LANDING_END_SPEED) * (t : Int) / (LANDING_TIME : Int))

/- Modelled from the spec: Landing flags a violation when the speed exceeds
the decreasing expected ceiling for the current tick-in-phase, or when the
dwell time has elapsed and the speed is still above the end-of-dwell floor. -/
def specLandingViolation (t : Nat) (v : Int) : Prop :=
  specLandingCeiling t < v ∨ (LANDING_TIME ≤ t ∧ LANDING_END_SPEED < v)

/- A Landing aircraft halfway through the dwell (tick 5) at speed 230: above
the ramp ceiling (135) but below the fixed start speed (240). -/
def landingProbe : Aircraft :=
  { dummyAircraft with
      phase := Phase.arr ArrivalState.LANDING, stateTime := 5, currentSpeed := 230 }

/-- C7 counterexample: the arrival Violation Detector checks Landing speed
against the fixed ceiling 240, not the decreasing expected ceiling: an
aircraft at tick 5 of the Landing dwell flying 230 exceeds the spec's ramp
ceiling (135 at that tick) yet checkViolation issues no notice and leaves the
aircraft unchanged. -/
theorem landing_ramp_not_enforced :
    specLandingViolation landingProbe.stateTime landingProbe.currentSpeed ∧
    specLandingCeiling landingProbe.stateTime = 135 ∧
    arrCheckViolation landingProbe 1000 0 = (landingProbe, none, 1000) :=
  ⟨Or.inl (by decide), by decide, by decide⟩

/-- C7 (amended): during Landing the detector flags a violation exactly when
the speed exceeds the fixed phase start ceiling 240 or the dwell time (10) has
elapsed with speed above the end floor 30 — the terminal-constraint half of
the claim holds, and every flagged violation is also a violation of the
spec's decreasing-ceiling rule (the code under-approximates the spec), while
the recorded permissible band of the notice is always [0, 240]. -/
theorem landing_check_characterization (a : Aircraft) (ctr now : Nat)
    (hph : a.phase = Phase.arr ArrivalState.LANDING)
    (hnv : a.getStateString ∉ a.violatedStates) :
    (((arrCheckViolation a ctr now).2.1).isSome = true ↔
      (LANDING_START_SPEED < a.currentSpeed ∨
        (LANDING_TIME ≤ a.stateTime ∧ LANDING_END_SPEED < a.currentSpeed))) ∧
    (((arrCheckViolation a ctr now).2.1).isSome = true →
      specLandingViolation a.stateTime a.currentSpeed) ∧
    (∀ v, (arrCheckViolation a ctr now).2.1 = some v →
      v.recordedSpeed = a.currentSpeed ∧ v.permissibleSpeedMin = 0 ∧
      v.permissibleSpeedMax = LANDING_START_SPEED) := by
  have hband : arrBandOf a =
      if LANDING_START_SPEED < a.currentSpeed ∨
          (LANDING_TIME ≤ a.stateTime ∧ LANDING_END_SPEED < a.currentSpeed) then
        some (0, LANDING_START_SPEED)
      else none := by
    unfold arrBandOf
    rw [hph]
  unfold arrCheckViolation runCheck
  rw [if_neg hnv, hband]
  by_cases hcond : LANDING_START_SPEED < a.currentSpeed ∨
      (LANDING_TIME ≤ a.stateTime ∧ LANDING_END_SPEED < a.currentSpeed)
  · rw [if_pos hcond]
    dsimp only
    refine ⟨by simp [hcond], fun _ => ?_, ?_⟩
    · rcases hcond with h | h
      · have hle : specLandingCeiling a.stateTime ≤ LANDING_START_SPEED := by
          unfold specLandingCeiling LANDING_START_SPEED LANDING_END_SPEED LANDING_TIME
          omega
        exact Or.inl (lt_of_le_of_lt hle h)
      · exact Or.inr h
    · intro v hv
      injection hv with h
      subst h
      exact ⟨rfl, rfl, rfl⟩
  · rw [if_neg hcond]
    dsimp only
    refine ⟨by simp [hcond], by simp, by simp⟩

/- A Landing aircraft past its dwell (tick 10) still flying 50: the terminal
constraint fires. -/
def landingProbe2 : Aircraft :=
  { dummyAircraft with
      phase := Phase.arr ArrivalState.LANDING, stateTime := 10, currentSpeed := 50 }

/-- Witness for the amended C7 on a Landing aircraft past its dwell time at
speed 50, for which the terminal constraint fires. -/
theorem landing_check_characterization_witness :
    landingProbe2.phase = Phase.arr ArrivalState.LANDING ∧
    landingProbe2.getStateString ∉ landingProbe2.violatedStates ∧
    ((((arrCheckViolation landingProbe2 1000 0).2.1).isSome = true ↔
        (LANDING_START_SPEED < landingProbe2.currentSpeed ∨
          (LANDING_TIME ≤ landingProbe2.stateTime ∧
            LANDING_END_SPEED < landingProbe2.currentSpeed))) ∧
      (((arrCheckViolation landingProbe2 1000 0).2.1).isSome = true →
        specLandingViolation landingProbe2.stateTime landingProbe2.currentSpeed) ∧
      (∀ v, (arrCheckViolation landingProbe2 1000 0).2.1 = some v →
        v.recordedSpeed = landingProbe2.currentSpeed ∧ v.permissibleSpeedMin = 0 ∧
        v.permissibleSpeedMax = LANDING_START_SPEED)) :=
  ⟨by decide, by decide,
    landing_check_characterization landingProbe2 1000 0 (by decide) (by decide)⟩


/- The C-queue pass on one aircraft that is still unassigned while runway C is
seizable: the aircraft gets the runway. -/
theorem handleC_assigns (s : SchedState) (i : Nat) (a : Aircraft)
    (hf : findPlane s.planes i = some a) (hr : a.assignedRunway = Runway.NONE)
    (hC : s.runwayCAvailable = true) (hfree : s.freeC ≤ s.time) :
    handleCQueueOne s i =
      { s with runwayCAvailable := false, occC := some i,
               planes := updatePlane s.planes i
                 (fun b => { b with assignedRunway := Runway.RWY_C }) } := by
  unfold handleCQueueOne tryAssignC
  rw [hf]
  simp [hr, hC, hfree]

/- The C-queue pass on one unassigned aircraft while runway C is already
taken: the aircraft is re-queued at the back. -/
theorem handleC_requeues (s : SchedState) (i : Nat) (a : Aircraft)
    (hf : findPlane s.planes i = some a) (hr : a.assignedRunway = Runway.NONE)
    (hC : s.runwayCAvailable = false) :
    handleCQueueOne s i = { s with queueC := s.queueC ++ [i] } := by
  unfold handleCQueueOne tryAssignC
  rw [hf]
  simp [hr, hC]

/-- C4: the pending queue of runway C is served in comparator order — higher
priority first, ties broken by earlier scheduled time: whichever order the two
aircraft entered the queue, when only one slot is available the aircraft that
the comparator ranks first (here `a`) is assigned it, the other is re-queued,
and on the following pass (any state holding the loser alone in the queue
with C seizable) the loser is assigned. -/
theorem queueC_priority_order (s : SchedState) (a b : Aircraft)
    (hab : a.id ≠ b.id)
    (hfa : findPlane s.planes a.id = some a) (hfb : findPlane s.planes b.id = some b)
    (hra : a.assignedRunway = Runway.NONE) (hrb : b.assignedRunway = Runway.NONE)
    (hq : s.queueC = [a.id, b.id] ∨ s.queueC = [b.id, a.id])
    (hord : b.priority < a.priority ∨
      (a.priority = b.priority ∧ a.scheduledTime < b.scheduledTime))
    (hC : s.runwayCAvailable = true) (hfree : s.freeC ≤ s.time) :
    (processQueueC s).occC = some a.id ∧
    (processQueueC s).queueC = [b.id] ∧
    (findPlane (processQueueC s).planes a.id).map (fun c => c.assignedRunway) =
      some Runway.RWY_C ∧
    (findPlane (processQueueC s).planes b.id).map (fun c => c.assignedRunway) =
      some Runway.NONE ∧
    (∀ s2 : SchedState, findPlane s2.planes b.id = some b → s2.queueC = [b.id] →
      s2.runwayCAvailable = true → s2.freeC ≤ s2.time →
      (processQueueC s2).occC = some b.id ∧
      (findPlane (processQueueC s2).planes b.id).map (fun c => c.assignedRunway) =
        some Runway.RWY_C) := by
  have hba : popsBefore s.planes a.id b.id = true := by
    unfold popsBefore
    rw [hfa, hfb]
    dsimp only
    rw [decide_eq_true_eq]
    rcases hord with h | ⟨h1, h2⟩
    · exact Or.inl h
    · exact Or.inr ⟨h1, Nat.le_of_lt h2⟩
  have hnab : popsBefore s.planes b.id a.id = false := by
    unfold popsBefore
    rw [hfa, hfb]
    dsimp only
    rw [decide_eq_false_iff_not]
    rintro (h | ⟨h1, h2⟩) <;> rcases hord with h' | ⟨h1', h2'⟩ <;> omega
  have hidC : ∀ c : Aircraft, c.id = a.id →
      ((fun b : Aircraft => { b with assignedRunway := Runway.RWY_C }) c).id = c.id :=
    fun _ _ => rfl
  have hsort : sortQ s.planes s.queueC = [a.id, b.id] := by
    rcases hq with hq | hq <;> rw [hq]
    · simp [sortQ, sortIns, hba]
    · simp [sortQ, sortIns, hnab]
  have hasg := handleC_assigns { s with queueC := [] } a.id a hfa hra hC hfree
  have hreq := handleC_requeues
    { s with queueC := [], runwayCAvailable := false, occC := some a.id,
             planes := updatePlane s.planes a.id
               (fun b => { b with assignedRunway := Runway.RWY_C }) }
    b.id b (by simpa using (findPlane_updatePlane_ne s.planes a.id b.id _ hidC hab.symm).trans hfb)
    hrb rfl
  have hrun : processQueueC s =
      { s with queueC := [b.id], runwayCAvailable := false, occC := some a.id,
               planes := updatePlane s.planes a.id
                 (fun b => { b with assignedRunway := Runway.RWY_C }) } := by
    unfold processQueueC
    rw [hsort]
    show handleCQueueOne (handleCQueueOne { s with queueC := [] } a.id) b.id = _
    rw [hasg, hreq]
    rfl
  refine ⟨by rw [hrun], by rw [hrun], ?_, ?_, ?_⟩
  · rw [hrun]
    show (findPlane (updatePlane s.planes a.id _) a.id).map _ = _
    rw [findPlane_updatePlane_self s.planes a.id _ hidC, hfa]
    rfl
  · rw [hrun]
    show (findPlane (updatePlane s.planes a.id _) b.id).map _ = _
    rw [findPlane_updatePlane_ne s.planes a.id b.id _ hidC hab.symm, hfb]
    simp [hrb]
  · intro s2 hf2 hq2 hC2 hfree2
    have hsort2 : sortQ s2.planes s2.queueC = [b.id] := by
      rw [hq2]; simp [sortQ, sortIns]
    have hasg2 := handleC_assigns { s2 with queueC := [] } b.id b hf2 hrb hC2 hfree2
    have hrun2 : processQueueC s2 =
        { s2 with queueC := [], runwayCAvailable := false, occC := some b.id,
                  planes := updatePlane s2.planes b.id
                    (fun c => { c with assignedRunway := Runway.RWY_C }) } := by
      unfold processQueueC
      rw [hsort2]
      show handleCQueueOne { s2 with queueC := [] } b.id = _
      rw [hasg2]
    refine ⟨by rw [hrun2], ?_⟩
    rw [hrun2]
    show (findPlane (updatePlane s2.planes b.id _) b.id).map _ = _
    rw [findPlane_updatePlane_self s2.planes b.id
          (fun c => { c with assignedRunway := Runway.RWY_C }) (fun _ _ => rfl), hf2]
    rfl

/- Concrete queue for the C4 witness: two commercial aircraft with equal
priority, ids 1 (scheduled earlier) and 2, queued in reverse order. -/
def c4a : Aircraft := { dummyAircraft with id := 1, scheduledTime := 0 }

def c4b : Aircraft := { dummyAircraft with id := 2, scheduledTime := 5 }

def c4state : SchedState :=
  { initState with planes := [c4a, c4b], activeIds := [1, 2], queueC := [2, 1] }

/-- Witness for C4: in a two-aircraft queue (equal priorities, ids 1 and 2
with 1 scheduled earlier, queued in the order [2, 1]) aircraft 1 wins runway C
and aircraft 2 is re-queued. -/
theorem queueC_priority_order_witness :
    c4a.id ≠ c4b.id ∧ c4state.queueC = [c4b.id, c4a.id] ∧
    c4a.priority = c4b.priority ∧ c4a.scheduledTime < c4b.scheduledTime ∧
    ((processQueueC c4state).occC = some c4a.id ∧
      (processQueueC c4state).queueC = [c4b.id] ∧
      (findPlane (processQueueC c4state).planes c4a.id).map (fun c => c.assignedRunway) =
        some Runway.RWY_C ∧
      (findPlane (processQueueC c4state).planes c4b.id).map (fun c => c.assignedRunway) =
        some Runway.NONE ∧
      (∀ s2 : SchedState, findPlane s2.planes c4b.id = some c4b → s2.queueC = [c4b.id] →
        s2.runwayCAvailable = true → s2.freeC ≤ s2.time →
        (processQueueC s2).occC = some c4b.id ∧
        (findPlane (processQueueC s2).planes c4b.id).map (fun c => c.assignedRunway) =
          some Runway.RWY_C)) :=
  ⟨by decide, by decide, by decide, by decide,
    queueC_priority_order c4state c4a c4b (by decide) (by decide) (by decide) (by decide)
      (by decide) (Or.inr (by decide)) (Or.inr (by decide)) (by decide) (by decide)⟩

/-- C6 counterexample: FedEx cargo arrivals on consecutive ticks — the first
(id 1000) takes runway C; the second (id 1001) finds C occupied and is
assigned its direction-native runway A in the same pass, so cargo does fall
back from the failed C attempt to the native runway. -/
theorem cargo_falls_back_to_native :
    Reachable sC6 ∧
    (findPlane sC6.planes 1001).map (fun a => (a.type, a.direction, a.assignedRunway)) =
      some (FlightType.CARGO, Direction.SOUTH, Runway.RWY_A) ∧
    (findPlane sC6.planes 1000).map (fun a => (a.type, a.assignedRunway)) =
      some (FlightType.CARGO, Runway.RWY_C) ∧
    sC6.occA = some 1001 ∧ sC6.occC = some 1000 :=
  ⟨reach_sC6, by decide, by decide, by decide, by decide⟩

/-- C6 (amended): the preference chain of the A-side queue pass is: Emergency
or Cargo try C first, then the native runway A with no type restriction —
so a Cargo aircraft whose C attempt failed IS assigned the native runway when
it is seizable — and only the final fall-back to C excludes Cargo: a
Commercial aircraft whose native runway attempt failed does fall back to C. -/
theorem runway_fallback_chain (s : SchedState) (i : Nat) (a : Aircraft)
    (hf : findPlane s.planes i = some a) (hr : a.assignedRunway = Runway.NONE)
    (hdir : a.direction = Direction.NORTH ∨ a.direction = Direction.SOUTH) :
    (a.type = FlightType.CARGO →
      ¬(s.runwayCAvailable = true ∧ s.freeC ≤ s.time) →
      s.runwayAAvailable = true → s.freeA ≤ s.time →
      (handleAQueueOne s i).occA = some i ∧
      (findPlane (handleAQueueOne s i).planes i).map (fun c => c.assignedRunway) =
        some Runway.RWY_A) ∧
    (a.type = FlightType.COMMERCIAL →
      ¬(s.runwayAAvailable = true ∧ s.freeA ≤ s.time) →
      s.runwayCAvailable = true → s.freeC ≤ s.time →
      (handleAQueueOne s i).occC = some i ∧
      (findPlane (handleAQueueOne s i).planes i).map (fun c => c.assignedRunway) =
        some Runway.RWY_C) := by
  constructor
  · intro ht hC hA hfreeA
    have hchain : chainA s i a =
        ({ s with runwayAAvailable := false, occA := some i,
                  planes := updatePlane s.planes i
                    (fun b => { b with assignedRunway := Runway.RWY_A }) }, true) := by
      unfold chainA prefStepC nativeStepA fallbackStepC tryAssignC tryAssignA
      simp [ht, hC, hA, hfreeA, hdir]
    have hrun : handleAQueueOne s i = (chainA s i a).1 := by
      unfold handleAQueueOne
      rw [hf]
      dsimp only
      rw [if_neg (by simp [hr]), if_pos (by rw [hchain])]
    rw [hrun, hchain]
    refine ⟨rfl, ?_⟩
    show (findPlane (updatePlane s.planes i _) i).map _ = _
    rw [findPlane_updatePlane_self s.planes i
          (fun b => { b with assignedRunway := Runway.RWY_A }) (fun _ _ => rfl), hf]
    rfl
  · intro ht hA hC hfreeC
    have hchain : chainA s i a =
        ({ s with runwayCAvailable := false, occC := some i,
                  planes := updatePlane s.planes i
                    (fun b => { b with assignedRunway := Runway.RWY_C }) }, true) := by
      unfold chainA prefStepC nativeStepA fallbackStepC tryAssignC tryAssignA
      simp [ht, hC, hA, hfreeC, hdir]
    have hrun : handleAQueueOne s i = (chainA s i a).1 := by
      unfold handleAQueueOne
      rw [hf]
      dsimp only
      rw [if_neg (by simp [hr]), if_pos (by rw [hchain])]
    rw [hrun, hchain]
    refine ⟨rfl, ?_⟩
    show (findPlane (updatePlane s.planes i _) i).map _ = _
    rw [findPlane_updatePlane_self s.planes i
          (fun b => { b with assignedRunway := Runway.RWY_C }) (fun _ _ => rfl), hf]
    rfl

/- A south-bound cargo aircraft facing an occupied runway C, for the C6
witness. -/
def c6cargo : Aircraft :=
  { dummyAircraft with id := 7, type := FlightType.CARGO, direction := Direction.SOUTH }

def c6state : SchedState :=
  { initState with planes := [c6cargo], activeIds := [7], runwayCAvailable := false }

/-- Witness for the amended C6: a south-bound cargo aircraft whose C attempt
cannot succeed (runway C unavailable) while A is seizable. -/
theorem runway_fallback_chain_witness :
    findPlane c6state.planes 7 = some c6cargo ∧
    c6cargo.assignedRunway = Runway.NONE ∧
    (c6cargo.direction = Direction.NORTH ∨ c6cargo.direction = Direction.SOUTH) ∧
    ((c6cargo.type = FlightType.CARGO →
        ¬(c6state.runwayCAvailable = true ∧ c6state.freeC ≤ c6state.time) →
        c6state.runwayAAvailable = true → c6state.freeA ≤ c6state.time →
        (handleAQueueOne c6state 7).occA = some 7 ∧
        (findPlane (handleAQueueOne c6state 7).planes 7).map (fun c => c.assignedRunway) =
          some Runway.RWY_A) ∧
      (c6cargo.type = FlightType.COMMERCIAL →
        ¬(c6state.runwayAAvailable = true ∧ c6state.freeA ≤ c6state.time) →
        c6state.runwayCAvailable = true → c6state.freeC ≤ c6state.time →
        (handleAQueueOne c6state 7).occC = some 7 ∧
        (findPlane (handleAQueueOne c6state 7).planes 7).map (fun c => c.assignedRunway) =
          some Runway.RWY_C)) :=
  ⟨by decide, by decide, Or.inr (by decide),
    runway_fallback_chain c6state 7 c6cargo (by decide) (by decide) (Or.inr (by decide))⟩

/- The release loop never changes the clock. -/
theorem releaseOne_time (s : SchedState) (j : Nat) : (releaseOne s j).time = s.time := by
  unfold releaseOne
  repeat' split
  all_goals rfl

/- Runway B released at tick T: available, stamped free-since T, no occupant. -/
def DoneB (T : Nat) (st : SchedState) : Prop :=
  st.runwayBAvailable = true ∧ st.freeB = T ∧ st.occB = none

theorem releaseOne_doneB (T : Nat) (s : SchedState) (j : Nat)
    (ht : s.time = T) (h : DoneB T s) : DoneB T (releaseOne s j) := by
  obtain ⟨h1, h2, h3⟩ := h
  unfold releaseOne DoneB
  repeat' split
  all_goals first
    | exact ⟨h1, h2, h3⟩
    | exact ⟨rfl, ht, rfl⟩

theorem releaseOne_planes_ne (s : SchedState) (i j : Nat) (hij : i ≠ j) :
    findPlane (releaseOne s j).planes i = findPlane s.planes i := by
  unfold releaseOne
  repeat' split
  all_goals first
    | rfl
    | exact findPlane_updatePlane_ne s.planes j i _ (fun _ _ => rfl) hij

theorem releaseOne_fires (s : SchedState) (i : Nat) (a : Aircraft)
    (hf : findPlane s.planes i = some a) (hB : a.assignedRunway = Runway.RWY_B)
    (hrel : releasable a = true) : DoneB s.time (releaseOne s i) := by
  unfold releaseOne
  rw [hf]
  dsimp only
  rw [if_pos ⟨by simp [hB], hrel⟩, hB]
  exact ⟨rfl, rfl, rfl⟩

/- Fold induction along the release scan: once an aircraft still holding
runway B in a releasable phase is in the remaining worklist (or B is already
released), the scan ends with B released and stamped with the current tick. -/
theorem releaseFold_doneB (i : Nat) (T : Nat) :
    ∀ (l : List Nat) (st : SchedState), st.time = T →
      ((i ∈ l ∧ ∃ a, findPlane st.planes i = some a ∧
          a.assignedRunway = Runway.RWY_B ∧ releasable a = true) ∨ DoneB T st) →
      DoneB T (l.foldl releaseOne st) := by
  intro l
  induction l with
  | nil =>
    intro st ht h
    rcases h with ⟨hmem, _⟩ | hd
    · cases hmem
    · exact hd
  | cons j l ih =>
    intro st ht h
    rcases h with ⟨hmem, a, hf, hB, hrel⟩ | hd
    · by_cases hij : j = i
      · subst hij
        exact ih _ ((releaseOne_time st j).trans ht)
          (Or.inr (ht ▸ releaseOne_fires st j a hf hB hrel))
      · rcases List.mem_cons.mp hmem with he | hmem'
        · exact absurd he.symm hij
        · refine ih _ ((releaseOne_time st j).trans ht) (Or.inl ⟨hmem', a, ?_, hB, hrel⟩)
          rw [releaseOne_planes_ne st i j (fun hh => hij hh.symm)]
          exact hf
    · exact ih _ ((releaseOne_time st j).trans ht) (Or.inr (releaseOne_doneB T st j ht hd))

/-- C5 (amended): the release scan runs at the END of assignRunways, before
the aircraft are stepped — so an aircraft observed holding runway B in a
releasable phase (Climb or Cruise for departures) at the start of a tick has
B released by that tick's scan: available, occupant cleared, free-since
stamped with the current tick. An aircraft that ENTERS Climb during tick T
does so in updateFlights, after tick T's scan already ran, so its runway is
released only by tick T+1's scan with free-since = T+1 (see the
counterexample). -/
theorem release_in_same_scan (s : SchedState) (i : Nat) (a : Aircraft)
    (hmem : i ∈ s.activeIds) (hf : findPlane s.planes i = some a)
    (hB : a.assignedRunway = Runway.RWY_B) (hrel : releasable a = true) :
    (releaseScan s).runwayBAvailable = true ∧ (releaseScan s).freeB = s.time ∧
    (releaseScan s).occB = none :=
  releaseFold_doneB i s.time s.activeIds s rfl (Or.inl ⟨hmem, a, hf, hB, hrel⟩)

/-- C5 counterexample: in the quiet run, departure 1002 is in TakeoffRoll on
runway B at the end of tick 27 and has transitioned to Climb during tick 28 —
yet at the end of tick 28 runway B is still unavailable with occupant 1002,
and only at the end of tick 29 is B available with free-since = 29, not 28. -/
theorem climb_release_lags_one_tick :
    Reachable (steps5 28) ∧
    (findPlane (steps5 27).planes 1002).map (fun a => (a.phase, a.assignedRunway)) =
      some (Phase.dep DepartureState.TAKEOFF_ROLL, Runway.RWY_B) ∧
    (findPlane (steps5 28).planes 1002).map (fun a => (a.phase, a.assignedRunway)) =
      some (Phase.dep DepartureState.CLIMB, Runway.RWY_B) ∧
    ((steps5 28).runwayBAvailable, (steps5 28).freeB, (steps5 28).occB) =
      (false, 0, some 1002) ∧
    ((steps5 29).runwayBAvailable, (steps5 29).freeB, (steps5 29).occB) =
      (true, 29, none) :=
  ⟨reach_steps5 28, by decide, by decide, by decide, by decide⟩

/- A departure already in Climb while still holding runway B, for the C5
witness. -/
def c5plane : Aircraft :=
  { dummyAircraft with
      id := 9, assignedRunway := Runway.RWY_B, phase := Phase.dep DepartureState.CLIMB }

def c5state : SchedState :=
  { initState with
      planes := [c5plane], activeIds := [9], occB := some 9,
      runwayBAvailable := false, time := 42 }

/-- Witness for the amended C5: a Climb-phase departure holding runway B is
released by the scan with free-since stamped at the current tick (42). -/
theorem release_in_same_scan_witness :
    (9 ∈ c5state.activeIds) ∧ findPlane c5state.planes 9 = some c5plane ∧
    c5plane.assignedRunway = Runway.RWY_B ∧ releasable c5plane = true ∧
    ((releaseScan c5state).runwayBAvailable = true ∧
      (releaseScan c5state).freeB = c5state.time ∧ (releaseScan c5state).occB = none) :=
  ⟨by decide, by decide, by decide, by decide,
    release_in_same_scan c5state 9 c5plane (by decide) (by decide) (by decide) (by decide)⟩

-- ---------------- an aircraft's lifetime as the scheduler drives it ----------------

/- What one tick does to a single aircraft: assignRunways may give it a
runway, updateStatus steps it (injection + Violation Detector), and
updateFlights forwards an emitted notice and clears the violation flags. -/
structure LifeStep where
  setRunway : Option Runway
  draws : TickDraws
  now : Nat

def applyRunway (a : Aircraft) : Option Runway → Aircraft
  | none => a
  | some r => { a with assignedRunway := r }

/- One tick of a single aircraft's lifetime (the aircraft rides with the two
detector counters), mirroring updateOneFlight's forward-and-reset step. -/
def lifeStep (x : Aircraft × Nat × Nat) (st : LifeStep) : Aircraft × Nat × Nat :=
  let a1 := applyRunway x.1 st.setRunway
  let r := updateStatus a1 st.draws st.now x.2.1 x.2.2
  let a2 := if r.1.hasActiveViolation = true then
      match r.1.currentViolation with
      | some _ =>
        if r.1.airline ∈ eligibleAirlineNames then
          { r.1 with hasActiveViolation := false, currentViolation := none }
        else r.1
      | none => r.1
    else r.1
  (a2, r.2.2.1, r.2.2.2)

/- The (phase name, notice) pairs the Violation Detector emits along a
lifetime. -/
def lifeViolations : Aircraft × Nat × Nat → List LifeStep → List (String × AVN)
  | _, [] => []
  | x, st :: rest =>
    (match (updateStatus (applyRunway x.1 st.setRunway) st.draws st.now x.2.1 x.2.2).2.1 with
     | some v =>
       [((updateStatus (applyRunway x.1 st.setRunway) st.draws st.now x.2.1 x.2.2).1.getStateString, v)]
     | none => []) ++ lifeViolations (lifeStep x st) rest

theorem applyRunway_vs (a : Aircraft) (o : Option Runway) :
    (applyRunway a o).violatedStates = a.violatedStates := by
  cases o <;> rfl

theorem getStateString_congr {a b : Aircraft} (h : a.phase = b.phase) :
    a.getStateString = b.getStateString := by
  unfold Aircraft.getStateString
  rw [h]

/- What updateStatus does to the violated-state set: either nothing is
emitted and the set is unchanged, or a notice for the current (not yet
recorded) state string is emitted and that string is added. -/
theorem updateStatus_vs (a : Aircraft) (d : TickDraws) (now ac dc : Nat) :
    ((updateStatus a d now ac dc).2.1 = none ∧
      (updateStatus a d now ac dc).1.violatedStates = a.violatedStates) ∨
    ((updateStatus a d now ac dc).2.1.isSome = true ∧
      (updateStatus a d now ac dc).1.getStateString ∉ a.violatedStates ∧
      (updateStatus a d now ac dc).1.violatedStates =
        (updateStatus a d now ac dc).1.getStateString :: a.violatedStates) := by
  unfold updateStatus
  rcases hp : a.phase with st | st
  · have hviol := violSig_fields (arrInject_violSig (arrPhaseStep a d) d)
    have hviol2 := violSig_fields (arrPhaseStep_violSig a d)
    have hbvs : (arrInject (arrPhaseStep a d) d).violatedStates = a.violatedStates := by
      rw [hviol.1, hviol2.1]
    rcases runCheck_cases arrBandOf (arrInject (arrPhaseStep a d) d) ac now with
      hcase | ⟨mn, mx, hb, hnm, hcase⟩
    · left
      dsimp only
      unfold arrCheckViolation
      rw [hcase]
      exact ⟨rfl, hbvs⟩
    · right
      dsimp only
      unfold arrCheckViolation
      rw [hcase]
      refine ⟨rfl, ?_, ?_⟩
      · exact (show (arrInject (arrPhaseStep a d) d).getStateString ∉ a.violatedStates from
          hbvs ▸ hnm)
      · exact (show (arrInject (arrPhaseStep a d) d).getStateString ::
            (arrInject (arrPhaseStep a d) d).violatedStates =
            (arrInject (arrPhaseStep a d) d).getStateString :: a.violatedStates by rw [hbvs])
  · have hviol := violSig_fields (depInject_violSig (depPhaseStep a d) d)
    have hviol2 := violSig_fields (depPhaseStep_violSig a d)
    have hbvs : (depInject (depPhaseStep a d) d).violatedStates = a.violatedStates := by
      rw [hviol.1, hviol2.1]
    rcases runCheck_cases depBandOf (depInject (depPhaseStep a d) d) dc now with
      hcase | ⟨mn, mx, hb, hnm, hcase⟩
    · left
      dsimp only
      unfold depCheckViolation
      rw [hcase]
      exact ⟨rfl, hbvs⟩
    · right
      dsimp only
      unfold depCheckViolation
      rw [hcase]
      refine ⟨rfl, ?_, ?_⟩
      · exact (show (depInject (depPhaseStep a d) d).getStateString ∉ a.violatedStates from
          hbvs ▸ hnm)
      · exact (show (depInject (depPhaseStep a d) d).getStateString ::
            (depInject (depPhaseStep a d) d).violatedStates =
            (depInject (depPhaseStep a d) d).getStateString :: a.violatedStates by rw [hbvs])

theorem lifeStep_vs (x : Aircraft × Nat × Nat) (st : LifeStep) :
    (lifeStep x st).1.violatedStates =
      (updateStatus (applyRunway x.1 st.setRunway) st.draws st.now x.2.1 x.2.2).1.violatedStates := by
  unfold lifeStep
  dsimp only
  repeat' split
  all_goals rfl

theorem updateStatus_vs_mono (a : Aircraft) (d : TickDraws) (now ac dc : Nat) {P : String}
    (h : P ∈ a.violatedStates) : P ∈ (updateStatus a d now ac dc).1.violatedStates := by
  rcases updateStatus_vs a d now ac dc with ⟨-, hvs⟩ | ⟨-, -, hvs⟩
  · rw [hvs]; exact h
  · rw [hvs]; exact List.mem_cons_of_mem _ h

/- A phase whose name is already in the violated set emits nothing for the
rest of the lifetime. -/
theorem lifeViolations_played (P : String) :
    ∀ (steps : List LifeStep) (x : Aircraft × Nat × Nat), P ∈ x.1.violatedStates →
      (lifeViolations x steps).countP (fun e => e.1 == P) = 0 := by
  intro steps
  induction steps with
  | nil => intro x h; rfl
  | cons st rest ih =>
    intro x h
    have hP1 : P ∈ (applyRunway x.1 st.setRunway).violatedStates := by
      rw [applyRunway_vs]; exact h
    have hP2 : P ∈ (lifeStep x st).1.violatedStates := by
      rw [lifeStep_vs]
      exact updateStatus_vs_mono _ _ _ _ _ hP1
    unfold lifeViolations
    rw [List.countP_append, ih (lifeStep x st) hP2]
    rcases updateStatus_vs (applyRunway x.1 st.setRunway) st.draws st.now x.2.1 x.2.2 with
      ⟨hnone, -⟩ | ⟨hsome, hnm, -⟩
    · rw [hnone]
      rfl
    · obtain ⟨v, hv⟩ := Option.isSome_iff_exists.mp hsome
      rw [hv]
      have hne : (updateStatus (applyRunway x.1 st.setRunway) st.draws st.now
          x.2.1 x.2.2).1.getStateString ≠ P := fun he => hnm (he ▸ hP1)
      rw [List.countP_cons, if_neg (by simp [hne])]
      rfl

/- At most one notice per phase name along any lifetime. -/
theorem lifeViolations_atMostOne (P : String) :
    ∀ (steps : List LifeStep) (x : Aircraft × Nat × Nat),
      (lifeViolations x steps).countP (fun e => e.1 == P) ≤ 1 := by
  intro steps
  induction steps with
  | nil => intro x; exact Nat.zero_le 1
  | cons st rest ih =>
    intro x
    by_cases hP : P ∈ x.1.violatedStates
    · rw [lifeViolations_played P (st :: rest) x hP]
      omega
    · unfold lifeViolations
      rw [List.countP_append]
      rcases updateStatus_vs (applyRunway x.1 st.setRunway) st.draws st.now x.2.1 x.2.2 with
        ⟨hnone, -⟩ | ⟨hsome, hnm, hvs⟩
      · rw [hnone]
        have := ih (lifeStep x st)
        simp only [List.countP_nil]
        omega
      · obtain ⟨v, hv⟩ := Option.isSome_iff_exists.mp hsome
        rw [hv]
        by_cases hgp : (updateStatus (applyRunway x.1 st.setRunway) st.draws st.now
            x.2.1 x.2.2).1.getStateString = P
        · have hPmem : P ∈ (lifeStep x st).1.violatedStates := by
            rw [lifeStep_vs, hvs, ← hgp]
            exact List.mem_cons_self _ _
          rw [lifeViolations_played P rest (lifeStep x st) hPmem]
          rw [List.countP_cons]
          split_ifs <;> simp
        · rw [List.countP_cons, if_neg (by simp [hgp])]
          have := ih (lifeStep x st)
          simp only [List.countP_nil]
          omega

/-- C3: across an aircraft's lifetime — any sequence of per-tick steps, each
an optional runway assignment followed by updateStatus under arbitrary draws
and the notice-forwarding reset — at most one violation notice is emitted per
phase name, and running the Violation Detector in a phase that has already
produced a notice (its name is in the aircraft's violated set) emits no
notice and leaves the aircraft, the notice slot and the id counter
unchanged, on the arrival and the departure side alike. -/
theorem one_notice_per_phase (a : Aircraft) (ac dc : Nat) (steps : List LifeStep)
    (P : String) :
    (lifeViolations (a, ac, dc) steps).countP (fun e => e.1 == P) ≤ 1 ∧
    (∀ ctr now, a.getStateString ∈ a.violatedStates →
      arrCheckViolation a ctr now = (a, none, ctr) ∧
      depCheckViolation a ctr now = (a, none, ctr)) :=
  ⟨lifeViolations_atMostOne P steps (a, ac, dc),
   fun ctr now hm =>
     ⟨by unfold arrCheckViolation runCheck; rw [if_pos hm],
      by unfold depCheckViolation runCheck; rw [if_pos hm]⟩⟩
